import Mathlib

/-!
Shallow embedding of the daos-stack/raft core (src/raft_server.c, src/raft_log.c)
and proofs about it.

Modelling conventions:
- C `int` / `long` / `raft_index_t` / `raft_term_t` / `raft_time_t` values are
  modelled as `Int` (no overflow is at issue in the verified properties);
  fuel arguments for C `while` loops are `Nat`.
- The host callback table is modelled as a host that supplies time and
  randomness as explicit arguments, always succeeds on persistence
  (`persist_term`, `persist_vote`), provides no optional `log_offer` /
  `log_pop` / `log_poll` hooks (they are optional in the C code: guarded by
  `if (me->cb && me->cb->log_offer)` etc.), and encodes the node id of a
  configuration-change entry in the entry itself (`log_get_node_id` reads the
  entry payload; we carry that id in the `nodeId` field of `Entry`).
- Messages sent through `send_appendentries` / `send_requestvote` /
  `send_installsnapshot` are collected in an output list.
- C `assert` statements are no-ops (as with NDEBUG); reads through an
  out-of-range pointer (undefined behaviour in C) return a fixed junk entry,
  and the subscripts actually handed to pointers are recorded so that
  theorems can speak about them.
- The physical circular-buffer log of raft_log.c is modelled field by field
  (`size`, `count`, `front`, `back`, `base`, entry array); `baseTerm` stands
  for the base term returned by the accessor `log_get_base_term`, whose
  definition is not part of the two source files (it is modelled from the
  spec: the log keeps the term of the last compacted entry).
-/

/-! ## Constants (from raft.h enums; error codes modelled from the spec's
error categories, values chosen distinct and negative as in the C headers) -/

def RAFT_STATE_FOLLOWER : Int := 0
def RAFT_STATE_CANDIDATE : Int := 1
def RAFT_STATE_LEADER : Int := 2

/-- Modelled from the spec: entry types; the declarations live in the repo's
raft.h, which is not among the provided source files. -/
def RAFT_LOGTYPE_NORMAL : Int := 0
def RAFT_LOGTYPE_ADD_NONVOTING_NODE : Int := 1
def RAFT_LOGTYPE_ADD_NODE : Int := 2
def RAFT_LOGTYPE_PROMOTE_NODE : Int := 3
def RAFT_LOGTYPE_DEMOTE_NODE : Int := 4
def RAFT_LOGTYPE_REMOVE_NONVOTING_NODE : Int := 5
def RAFT_LOGTYPE_REMOVE_NODE : Int := 6
def RAFT_LOGTYPE_SNAPSHOT : Int := 7

/-- Modelled from the spec: error categories returned to the host (raft.h). -/
def RAFT_ERR_NOT_LEADER : Int := -2
def RAFT_ERR_ONE_VOTING_CHANGE_ONLY : Int := -3
def RAFT_ERR_SHUTDOWN : Int := -4
def RAFT_ERR_NOMEM : Int := -5
def RAFT_ERR_SNAPSHOT_IN_PROGRESS : Int := -6
def RAFT_ERR_SNAPSHOT_ALREADY_LOADED : Int := -7
def RAFT_ERR_MIGHT_VIOLATE_LEASE : Int := -8
def RAFT_ERR_INVALID_CFG_CHANGE : Int := -9

def RAFT_REQUESTVOTE_ERR_GRANTED : Int := 1
def RAFT_REQUESTVOTE_ERR_NOT_GRANTED : Int := 0
def RAFT_REQUESTVOTE_ERR_UNKNOWN_NODE : Int := -1

/-! ## Entries and the physical log (raft_log.c) -/

/-- A log entry (raft_entry_t): term, id, type and payload; `dataLen` is
`data.len`, and `nodeId` is the node id the host encodes in the payload of a
configuration-change entry (returned by the `log_get_node_id` callback). -/
structure Entry where
  term : Int
  id : Int
  etype : Int
  dataLen : Int
  nodeId : Int
deriving Repr, DecidableEq

/-- The junk entry returned by reads through an out-of-range pointer. -/
def junkEntry : Entry := { term := 0, id := 0, etype := RAFT_LOGTYPE_NORMAL, dataLen := 0, nodeId := 0 }

/-- The physical circular-buffer log (log_private_t). `data` is the entry
array; only subscripts in `[0, size)` correspond to allocated memory. -/
structure RaftLog where
  size : Int
  count : Int
  front : Int
  back : Int
  base : Int
  baseTerm : Int
  data : Int → Entry

/-- `mod` from raft_log.c; both arguments of every call are such that this
agrees with `Int.emod` (which already returns a value in `[0, b)` for
`b > 0`). -/
def cmod (a b : Int) : Int := a % b

/-- `has_idx`. -/
def log_has_idx (l : RaftLog) (idx : Int) : Prop :=
  l.base < idx ∧ idx ≤ l.base + l.count

instance (l : RaftLog) (idx : Int) : Decidable (log_has_idx l idx) := by
  unfold log_has_idx; infer_instance

/-- `subscript`: the physical subscript of logical index `idx`. -/
def log_subscript (l : RaftLog) (idx : Int) : Int :=
  (l.front + (idx - (l.base + 1))) % l.size

/-- `batch_up`: maximal number of physically contiguous entries starting at
`idx`, at most `n`. -/
def batch_up (l : RaftLog) (idx n : Int) : Int :=
  let lo := log_subscript l idx
  let hi := log_subscript l (idx + n - 1)
  if lo ≤ hi then hi - lo + 1 else l.size - lo

/-- `batch_down`: maximal number of physically contiguous entries ending at
`idx` going downward, at most `n`. -/
def batch_down (l : RaftLog) (idx n : Int) : Int :=
  let hi := log_subscript l idx
  let lo := log_subscript l (idx - n + 1)
  if lo ≤ hi then hi - lo + 1 else hi + 1

/-- `log_clear`. -/
def log_clear (l : RaftLog) : RaftLog :=
  { l with count := 0, back := 0, front := 0, base := 0 }

/-- `log_count`. -/
def log_count (l : RaftLog) : Int := l.count

/-- `log_get_current_idx`. -/
def log_get_current_idx (l : RaftLog) : Int := l.count + l.base

/-- `log_get_base`. -/
def log_get_base (l : RaftLog) : Int := l.base

/-- Modelled from the spec: `log_get_base_term` (accessor not contained in the
provided raft_log.c); the log's compacted prefix is represented by its base
index and base term. -/
def log_get_base_term (l : RaftLog) : Int := l.baseTerm

/-- Read the `n` entries a C pointer `&entries[s]` addresses (out-of-range
subscripts give `junkEntry`; in C such a read is undefined behaviour). -/
def log_read_run (l : RaftLog) (s : Int) (n : Nat) : List Entry :=
  (List.range n).map (fun j => if 0 ≤ s + j ∧ s + j < l.size then l.data (s + j) else junkEntry)

/-- Write a physically contiguous run of entries starting at raw subscript
`s` (the `memcpy(ptr, &ety[i], k * sizeof ..)` in `log_append`). -/
def log_write_run (l : RaftLog) (s : Int) (es : List Entry) : RaftLog :=
  { l with data := fun j => if 0 ≤ j - s ∧ j - s < (es.length : Int) then
      es.getD (j - s).toNat junkEntry else l.data j }

/-- `log_get_from_idx`: the first physically contiguous run starting at
`idx`, together with its length (`*n_etys`). -/
def log_get_from_idx (l : RaftLog) (idx : Int) : List Entry × Int :=
  if log_has_idx l idx then
    let n := batch_up l idx ((l.base + l.count) - idx + 1)
    (log_read_run l (log_subscript l idx) n.toNat, n)
  else ([], 0)

/-- `log_get_at_idx`. -/
def log_get_at_idx (l : RaftLog) (idx : Int) : Option Entry :=
  if log_has_idx l idx then some (l.data (log_subscript l idx)) else none

/-- The size the `for (newsize = me->size; newsize < (me->count + n); newsize *= 2)`
loop of `__ensurecapacity` computes, with explicit fuel; for `0 < s` and fuel
`≥ target.toNat` this is exactly the C result (for `s = 0` the C loop does not
terminate). -/
def growSize : Nat → Int → Int → Int
  | 0, s, _ => s
  | f + 1, s, target => if target ≤ s then s else growSize f (2 * s) target

/-- `__ensurecapacity` (allocation always succeeds in the model): when the
log must grow, entries are laid out contiguously from subscript 0. -/
def log_ensurecapacity (l : RaftLog) (n : Int) : RaftLog :=
  if l.count + n ≤ l.size then l
  else
    let newsize := growSize (l.count + n).toNat l.size (l.count + n)
    { l with
      size := newsize
      front := 0
      back := l.count
      data := fun j => if 0 ≤ j ∧ j < l.count then l.data ((l.front + j) % l.size) else junkEntry }

/-- Well-formedness of the physical log, maintained by every constructor and
operation of raft_log.c and relied on by the pointer arithmetic. -/
def LogWF (l : RaftLog) : Prop :=
  0 < l.size ∧ 0 ≤ l.front ∧ l.front < l.size ∧ 0 ≤ l.count ∧ l.count ≤ l.size ∧
    l.back = (l.front + l.count) % l.size

instance (l : RaftLog) : Decidable (LogWF l) := by
  unfold LogWF; infer_instance

/-! ## Nodes and the server (raft_server.c, raft_private.h) -/

/-- Modelled from the spec: a peer record (raft_node.c is not among the
provided source files): voting flag, sufficient-logs flag, next/match index,
lease bookkeeping and the per-election vote tally flag. -/
structure RaftNode where
  id : Int
  voting : Bool
  hasSufficientLogs : Bool
  nextIdx : Int
  matchIdx : Int
  effectiveTime : Int
  lease : Int
  voteForMe : Bool
deriving Repr, DecidableEq

/-- Modelled from the spec: `raft_node_new` — a fresh node is voting, has
`next_idx` 1, `match_idx` 0, and no lease or tally state. -/
def raft_node_new (id : Int) : RaftNode :=
  { id := id, voting := true, hasSufficientLogs := false, nextIdx := 1,
    matchIdx := 0, effectiveTime := 0, lease := 0, voteForMe := false }

/-- The server state (raft_server_private_t). -/
structure Server where
  currentTerm : Int
  votedFor : Int
  log : RaftLog
  commitIdx : Int
  lastAppliedIdx : Int
  state : Int
  prevote : Bool
  leaderId : Int
  nodeId : Int
  electionTimer : Int
  electionTimeoutRand : Int
  requestTimeout : Int
  electionTimeout : Int
  votingCfgChangeLogIdx : Int
  snapshotInProgress : Bool
  snapshotLastIdx : Int
  snapshotLastTerm : Int
  startTime : Int
  firstStart : Bool
  leaseMaintenanceGrace : Int
  nodes : List RaftNode

/-- `raft_get_node` (modelled from the spec: lookup of a peer by id). -/
def raft_get_node (me : Server) (id : Int) : Option RaftNode :=
  me.nodes.find? (fun n => n.id == id)

/-- `raft_get_my_node` (modelled from the spec: the node marked self). -/
def raft_get_my_node (me : Server) : Option RaftNode :=
  me.nodes.find? (fun n => n.id == me.nodeId)

/-- `raft_is_self` (modelled from the spec: a node is self when its id is the
server's own id). -/
def raft_is_self (me : Server) (n : RaftNode) : Prop := n.id = me.nodeId

instance (me : Server) (n : RaftNode) : Decidable (raft_is_self me n) := by
  unfold raft_is_self; infer_instance

/-- Update the node with the given id (writes through a `raft_node_t*` into
the server's node table). -/
def updateNode (me : Server) (id : Int) (f : RaftNode → RaftNode) : Server :=
  { me with nodes := me.nodes.map (fun n => if n.id = id then f n else n) }

/-- `raft_get_num_voting_nodes` (modelled from the spec: the number of voting
peers). -/
def raft_get_num_voting_nodes (me : Server) : Nat :=
  (me.nodes.filter (fun n => n.voting)).length

/-- `raft_get_nvotes_for_me` (raft_server.c): voting nodes whose
`vote_for_me` flag is set. -/
def raft_get_nvotes_for_me (me : Server) : Nat :=
  (me.nodes.filter (fun n => n.voting && n.voteForMe)).length

/-- `raft_votes_is_majority` (raft_server.c). -/
def raft_votes_is_majority (numNodes nvotes : Nat) : Prop :=
  ¬ numNodes < nvotes ∧ numNodes / 2 + 1 ≤ nvotes

instance (a b : Nat) : Decidable (raft_votes_is_majority a b) := by
  unfold raft_votes_is_majority; infer_instance

/-- `raft_get_current_idx`. -/
def raft_get_current_idx (me : Server) : Int := log_get_current_idx me.log

/-- `raft_get_commit_idx` (trivial accessor from raft_server_properties). -/
def raft_get_commit_idx (me : Server) : Int := me.commitIdx

/-- `raft_set_commit_idx` (trivial setter). -/
def raft_set_commit_idx (me : Server) (idx : Int) : Server := { me with commitIdx := idx }

/-- `raft_set_state` (trivial setter). -/
def raft_set_state (me : Server) (s : Int) : Server := { me with state := s }

/-- `raft_set_snapshot_metadata` (trivial setter). -/
def raft_set_snapshot_metadata (me : Server) (term idx : Int) : Server :=
  { me with snapshotLastTerm := term, snapshotLastIdx := idx }

/-- `raft_is_leader` etc. -/
def raft_is_leader (me : Server) : Prop := me.state = RAFT_STATE_LEADER

def raft_is_candidate (me : Server) : Prop := me.state = RAFT_STATE_CANDIDATE

def raft_is_follower (me : Server) : Prop := me.state = RAFT_STATE_FOLLOWER

instance (me : Server) : Decidable (raft_is_leader me) := by
  unfold raft_is_leader; infer_instance

instance (me : Server) : Decidable (raft_is_candidate me) := by
  unfold raft_is_candidate; infer_instance

instance (me : Server) : Decidable (raft_is_follower me) := by
  unfold raft_is_follower; infer_instance

/-- Modelled from the spec: `raft_set_current_term` (raft_server_properties.c
is not among the provided files): when the term increases it is persisted
(persistence always succeeds in the model), `current_term` is updated and
`voted_for` is reset; §8 invariant 2: voted_for is reset only when
current_term strictly increases. -/
def raft_set_current_term (me : Server) (term : Int) : Server :=
  if me.currentTerm < term then { me with currentTerm := term, votedFor := -1 } else me

/-- `raft_vote_for_nodeid` (persistence always succeeds in the model). -/
def raft_vote_for_nodeid (me : Server) (nodeid : Int) : Server :=
  { me with votedFor := nodeid }

/-- `raft_snapshot_is_in_progress`. -/
def raft_snapshot_is_in_progress (me : Server) : Prop := me.snapshotInProgress = true

instance (me : Server) : Decidable (raft_snapshot_is_in_progress me) := by
  unfold raft_snapshot_is_in_progress; infer_instance

/-- `raft_voting_change_is_in_progress`. -/
def raft_voting_change_is_in_progress (me : Server) : Prop :=
  me.votingCfgChangeLogIdx ≠ -1

instance (me : Server) : Decidable (raft_voting_change_is_in_progress me) := by
  unfold raft_voting_change_is_in_progress; infer_instance

/-- `raft_get_entry_term`: `some term` when we have the term at `idx`
(either a stored entry or the log base), `none` otherwise. -/
def raft_get_entry_term (me : Server) (idx : Int) : Option Int :=
  match log_get_at_idx me.log idx with
  | some e => some e.term
  | none => if idx = log_get_base me.log then some (log_get_base_term me.log) else none

/-- `raft_get_last_log_term` (modelled from the spec: the term of the last
log entry, or 0 for the empty log — "Term 0 is the initial empty-log term"). -/
def raft_get_last_log_term (me : Server) : Int :=
  if 0 < raft_get_current_idx me then
    (raft_get_entry_term me (raft_get_current_idx me)).getD 0
  else 0

/-- `raft_entry_is_voting_cfg_change`. -/
def raft_entry_is_voting_cfg_change (e : Entry) : Prop :=
  e.etype = RAFT_LOGTYPE_ADD_NODE ∨ e.etype = RAFT_LOGTYPE_PROMOTE_NODE ∨
  e.etype = RAFT_LOGTYPE_DEMOTE_NODE ∨ e.etype = RAFT_LOGTYPE_REMOVE_NODE

instance (e : Entry) : Decidable (raft_entry_is_voting_cfg_change e) := by
  unfold raft_entry_is_voting_cfg_change; infer_instance

/-- `raft_entry_is_cfg_change`. -/
def raft_entry_is_cfg_change (e : Entry) : Prop :=
  e.etype = RAFT_LOGTYPE_ADD_NODE ∨ e.etype = RAFT_LOGTYPE_ADD_NONVOTING_NODE ∨
  e.etype = RAFT_LOGTYPE_PROMOTE_NODE ∨ e.etype = RAFT_LOGTYPE_DEMOTE_NODE ∨
  e.etype = RAFT_LOGTYPE_REMOVE_NONVOTING_NODE ∨ e.etype = RAFT_LOGTYPE_REMOVE_NODE

instance (e : Entry) : Decidable (raft_entry_is_cfg_change e) := by
  unfold raft_entry_is_cfg_change; infer_instance

/-! ## Membership side effects of log mutation (raft_server.c: add/remove
node, `raft_offer_log`, `raft_pop_log`) -/

/-- `raft_add_node_internal`: no duplicate ids; a node added while we are
leader gets its `effective_time` initialised to the current time. -/
def raft_add_node_internal (me : Server) (id : Int) (isSelf : Bool) (now : Int) :
    Server × Option RaftNode :=
  match raft_get_node me id with
  | some _ => (me, none)
  | none =>
    let node0 := raft_node_new id
    let node := if raft_is_leader me then { node0 with effectiveTime := now } else node0
    let me1 := { me with nodes := me.nodes ++ [node] }
    let me2 := if isSelf then { me1 with nodeId := id } else me1
    (me2, some node)

/-- `raft_add_non_voting_node_internal`. -/
def raft_add_non_voting_node_internal (me : Server) (id : Int) (isSelf : Bool) (now : Int) :
    Server × Option RaftNode :=
  match raft_add_node_internal me id isSelf now with
  | (me1, none) => (me1, none)
  | (me1, some n) =>
    (updateNode me1 n.id (fun m => { m with voting := false }), some { n with voting := false })

/-- `raft_remove_node` (by node identity; ids are unique). -/
def raft_remove_node (me : Server) (id : Int) : Server :=
  { me with nodes := me.nodes.eraseP (fun n => n.id == id) }

/-- One iteration of the `raft_offer_log` loop: apply the membership effect
of a configuration-change entry being appended at index `eidx`. -/
def raft_offer_log_one (me : Server) (e : Entry) (eidx now : Int) : Server :=
  if raft_entry_is_cfg_change e then
    let me1 := if raft_entry_is_voting_cfg_change e then
        { me with votingCfgChangeLogIdx := eidx } else me
    let nid := e.nodeId
    let isSelf := nid == me1.nodeId
    if e.etype = RAFT_LOGTYPE_ADD_NONVOTING_NODE then
      (raft_add_non_voting_node_internal me1 nid isSelf now).1
    else if e.etype = RAFT_LOGTYPE_ADD_NODE then
      (raft_add_node_internal me1 nid isSelf now).1
    else if e.etype = RAFT_LOGTYPE_PROMOTE_NODE then
      updateNode me1 nid (fun m => { m with voting := true })
    else if e.etype = RAFT_LOGTYPE_DEMOTE_NODE then
      updateNode me1 nid (fun m => { m with voting := false })
    else if e.etype = RAFT_LOGTYPE_REMOVE_NODE then
      raft_remove_node me1 nid
    else if e.etype = RAFT_LOGTYPE_REMOVE_NONVOTING_NODE then
      raft_remove_node me1 nid
    else me1
  else me

/-- `raft_offer_log`: entries of an accepted run, in ascending index order. -/
def raft_offer_log (me : Server) (batch : List Entry) (idx now : Int) : Server :=
  batch.enum.foldl (fun s p => raft_offer_log_one s p.2 (idx + (p.1 : Int)) now) me

/-- One iteration of the `raft_pop_log` loop: invert the membership effect of
a configuration-change entry being removed from index `eidx` (the
cfg-change reversibility table), clearing `voting_cfg_change_log_idx` when
`eidx` is at or below it. -/
def raft_pop_log_one (me : Server) (e : Entry) (eidx now : Int) : Server :=
  if raft_entry_is_cfg_change e then
    let me1 := if eidx ≤ me.votingCfgChangeLogIdx then
        { me with votingCfgChangeLogIdx := -1 } else me
    let nid := e.nodeId
    let isSelf := nid == me1.nodeId
    if e.etype = RAFT_LOGTYPE_DEMOTE_NODE then
      updateNode me1 nid (fun m => { m with voting := true })
    else if e.etype = RAFT_LOGTYPE_REMOVE_NODE then
      (raft_add_node_internal me1 nid isSelf now).1
    else if e.etype = RAFT_LOGTYPE_REMOVE_NONVOTING_NODE then
      (raft_add_non_voting_node_internal me1 nid isSelf now).1
    else if e.etype = RAFT_LOGTYPE_ADD_NONVOTING_NODE then
      raft_remove_node me1 nid
    else if e.etype = RAFT_LOGTYPE_ADD_NODE then
      raft_remove_node me1 nid
    else if e.etype = RAFT_LOGTYPE_PROMOTE_NODE then
      updateNode me1 nid (fun m => { m with voting := false })
    else me1
  else me

/-- `raft_pop_log`: walks the handed entries in reverse index order
(`for (i = n_entries - 1; i >= 0; i--)`). -/
def raft_pop_log (me : Server) (batch : List Entry) (idx now : Int) : Server :=
  batch.enum.reverse.foldl (fun s p => raft_pop_log_one s p.2 (idx + (p.1 : Int)) now) me

/-! ## Log mutation at the server level (raft_log.c `log_append`,
`log_delete`; they call back into the server) -/

/-- The batched copy loop of `log_append`; fuel is the number of entries
still to place (each batch places at least one for a well-formed log). The
model has no host `log_offer` callback, so every offered entry is accepted
and the result code is 0. -/
def log_append_loop (now : Int) : Nat → Server → List Entry → Server
  | 0, me, _ => me
  | _, me, [] => me
  | fuel + 1, me, ents =>
    let idx := me.log.base + me.log.count + 1
    let k := batch_up me.log idx (ents.length : Int)
    let kn := k.toNat
    if kn = 0 then me
    else
      let batch := ents.take kn
      let l1 := log_write_run me.log me.log.back batch
      let l2 := { l1 with count := l1.count + (kn : Int), back := (l1.back + (kn : Int)) % l1.size }
      let me2 := raft_offer_log { me with log := l2 } batch idx now
      log_append_loop now fuel me2 (ents.drop kn)

/-- `log_append` = `raft_append_entries`: ensure capacity, then place the
entries in physically contiguous runs, notifying the server per run. -/
def raft_append_entries (me : Server) (ents : List Entry) (now : Int) : Server :=
  let me1 := { me with log := log_ensurecapacity me.log (ents.length : Int) }
  log_append_loop now ents.length me1 ents

/-- Result of `log_delete`: final state, return code, and the trace of pop
runs — for each run the raw array subscript of the pointer handed to the
`log_pop` callback and to `raft_pop_log` (`&me->entries[me->back - 1 - k]`),
the run length `k`, and the `idx` argument passed along. -/
structure DeleteOut where
  srv : Server
  rc : Int
  pops : List (Int × Int × Int)

/-- The `while (idx <= me->base + me->count)` loop of `log_delete`; fuel is
an upper bound on the number of iterations (`count` decreases by `k ≥ 1`
each time). -/
def log_delete_loop (now : Int) : Nat → Server → Int → List (Int × Int × Int) → DeleteOut
  | 0, me, _, acc => { srv := me, rc := 0, pops := acc.reverse }
  | fuel + 1, me, idx, acc =>
    if idx ≤ me.log.base + me.log.count then
      let tail := me.log.base + me.log.count
      let k := batch_down me.log tail (tail - idx + 1)
      let ptr := me.log.back - 1 - k
      let kn := k.toNat
      if kn = 0 then { srv := me, rc := 0, pops := acc.reverse }
      else
        let batch := log_read_run me.log ptr kn
        let me1 := raft_pop_log me batch idx now
        let l := me1.log
        let l2 := { l with back := (l.back - k) % l.size, count := l.count - k }
        log_delete_loop now fuel { me1 with log := l2 } idx ((ptr, k, idx) :: acc)
    else { srv := me, rc := 0, pops := acc.reverse }

/-- `log_delete`: remove entries with index ≥ `idx` from the tail inward. -/
def log_delete (me : Server) (idx now : Int) : DeleteOut :=
  if log_has_idx me.log idx then log_delete_loop now (me.log.count.toNat + 1) me idx []
  else { srv := me, rc := -1, pops := [] }

/-- `raft_delete_entry_from_idx`. -/
def raft_delete_entry_from_idx (me : Server) (idx now : Int) : DeleteOut :=
  let me1 := if idx ≤ me.votingCfgChangeLogIdx then
      { me with votingCfgChangeLogIdx := -1 } else me
  log_delete me1 idx now

/-- `log_load_from_snapshot`: clear, append a single SNAPSHOT sentinel, set
`base = idx - 1` (the C leaves the sentinel's payload-encoded node id
uninitialised; the model uses 0). -/
def log_load_from_snapshot (me : Server) (idx term now : Int) : Server :=
  let me1 := { me with log := log_clear me.log }
  let ety : Entry := { term := term, id := 1, etype := RAFT_LOGTYPE_SNAPSHOT, dataLen := 0, nodeId := 0 }
  let me2 := raft_append_entries me1 [ety] now
  { me2 with log := { me2.log with base := idx - 1 } }

/-! ## Messages and sends -/

structure MsgAE where
  term : Int
  prevLogIdx : Int
  prevLogTerm : Int
  leaderCommit : Int
  entries : List Entry
deriving Repr, DecidableEq

structure MsgAEResp where
  term : Int
  success : Int
  currentIdx : Int
  firstIdx : Int
  lease : Int
deriving Repr, DecidableEq

structure MsgRV where
  term : Int
  candidateId : Int
  lastLogIdx : Int
  lastLogTerm : Int
  prevote : Bool
deriving Repr, DecidableEq

structure MsgRVResp where
  term : Int
  voteGranted : Int
  prevote : Bool
deriving Repr, DecidableEq

structure MsgIS where
  term : Int
  lastIdx : Int
  lastTerm : Int
deriving Repr, DecidableEq

inductive Msg
  | appendentries (m : MsgAE)
  | requestvote (m : MsgRV)
  | installsnapshot (m : MsgIS)
deriving Repr, DecidableEq

/-- A message handed to a send callback, with the destination node id. -/
structure Send where
  dst : Int
  msg : Msg
deriving Repr, DecidableEq

/-- `raft_send_installsnapshot`. -/
def raft_send_installsnapshot (me : Server) (nid : Int) : List Send :=
  [⟨nid, Msg.installsnapshot
    { term := me.currentTerm, lastIdx := log_get_base me.log, lastTerm := log_get_base_term me.log }⟩]

/-- `raft_send_appendentries` to one node: when the node's `next_idx` is at
or below the log base, an InstallSnapshot is sent instead. -/
def raft_send_appendentries (me : Server) (n : RaftNode) : List Send :=
  if n.nextIdx ≤ log_get_base me.log then raft_send_installsnapshot me n.id
  else
    let ents := (log_get_from_idx me.log n.nextIdx).1
    let prevIdx := n.nextIdx - 1
    let prevTerm := (raft_get_entry_term me prevIdx).getD 0
    [⟨n.id, Msg.appendentries
      { term := me.currentTerm, prevLogIdx := prevIdx, prevLogTerm := prevTerm,
        leaderCommit := raft_get_commit_idx me, entries := ents }⟩]

/-- `raft_send_requestvote`. -/
def raft_send_requestvote (me : Server) (n : RaftNode) : List Send :=
  [⟨n.id, Msg.requestvote
    { term := me.currentTerm, candidateId := me.nodeId,
      lastLogIdx := raft_get_current_idx me,
      lastLogTerm := raft_get_last_log_term me, prevote := me.prevote }⟩]

/-- `raft_send_appendentries_all`: refresh the election timer and send to
every non-self node. -/
def raft_send_appendentries_all (me : Server) (now : Int) : Server × List Send :=
  let me1 := { me with electionTimer := now }
  (me1, ((me1.nodes.filter (fun n => !(n.id == me1.nodeId))).map
    (raft_send_appendentries me1)).flatten)

/-! ## Leases, role transitions, elections (raft_server.c) -/

/-- `raft_lease_granted`: might we have granted a lease that has not expired
to someone other than `exceptId`? -/
def raft_lease_granted (me : Server) (exceptId now : Int) : Prop :=
  (¬ me.firstStart = true ∧ now - me.startTime < me.electionTimeout) ∨
  (me.leaderId ≠ -1 ∧ me.leaderId ≠ exceptId ∧ now - me.electionTimer < me.electionTimeout)

instance (me : Server) (e now : Int) : Decidable (raft_lease_granted me e now) := by
  unfold raft_lease_granted; infer_instance

/-- `has_lease`: self always holds a lease; with grace, a node holds a lease
while `now < lease + G` or while `now - effective_time < E + G`. -/
def has_lease (me : Server) (n : RaftNode) (now : Int) (withGrace : Bool) : Prop :=
  raft_is_self me n ∨
  (if withGrace then
    now < n.lease + me.leaseMaintenanceGrace ∨
      now - n.effectiveTime < me.electionTimeout + me.leaseMaintenanceGrace
  else now < n.lease)

instance (me : Server) (n : RaftNode) (now : Int) (g : Bool) :
    Decidable (has_lease me n now g) := by
  unfold has_lease; infer_instance

/-- The count `n` computed by `has_majority_leases`: voting nodes holding a
lease. -/
def num_voting_with_lease (me : Server) (now : Int) (withGrace : Bool) : Nat :=
  (me.nodes.filter (fun n => n.voting && decide (has_lease me n now withGrace))).length

/-- The return value of `has_majority_leases`:
`n_voting / 2 + 1 <= n`. -/
def has_majority_leases (me : Server) (now : Int) (withGrace : Bool) : Prop :=
  raft_get_num_voting_nodes me / 2 + 1 ≤ num_voting_with_lease me now withGrace

instance (me : Server) (now : Int) (g : Bool) :
    Decidable (has_majority_leases me now g) := by
  unfold has_majority_leases; infer_instance

/-- `raft_become_follower`; `etRand` is the freshly randomised election
timeout the host's `get_rand` produces
(`election_timeout * (1 + get_rand())`). -/
def raft_become_follower (me : Server) (now etRand : Int) : Server :=
  { me with state := RAFT_STATE_FOLLOWER, electionTimeoutRand := etRand, electionTimer := now }

/-- One iteration of the `raft_become_leader` loop over the node table. -/
def become_leader_step (selfId now : Int) (acc : Server × List Send) (n : RaftNode) :
    Server × List Send :=
  if n.id = selfId then acc
  else
    let s1 := updateNode acc.1 n.id (fun m =>
      { m with nextIdx := raft_get_current_idx acc.1 + 1, matchIdx := 0, effectiveTime := now })
    match raft_get_node s1 n.id with
    | some m => (s1, acc.2 ++ raft_send_appendentries s1 m)
    | none => (s1, acc.2)

/-- `raft_become_leader`: reset the election timer, and for each non-self
node reset `next_idx`, `match_idx` and `effective_time`, then send it an
AppendEntries. -/
def raft_become_leader (me : Server) (now : Int) : Server × List Send :=
  let me1 := { me with state := RAFT_STATE_LEADER, electionTimer := now }
  me1.nodes.foldl (become_leader_step me1.nodeId now) (me1, [])

/-- `raft_count_votes` as reached from `raft_become_prevoted_candidate`, at
which point `me->prevote` is already 0, so a majority leads straight to
`raft_become_leader` (the C source has a single `raft_count_votes`; it is
split here to avoid the mutual recursion, which the source resolves by
having cleared `prevote` before the nested call). -/
def raft_count_votes_noprevote (me : Server) (now : Int) : Server × Int × List Send :=
  if raft_votes_is_majority (raft_get_num_voting_nodes me) (raft_get_nvotes_for_me me) then
    let p := raft_become_leader me now
    (p.1, 0, p.2)
  else (me, 0, [])

/-- `raft_become_prevoted_candidate`: bump the term, vote for self, clear
`prevote`, send real RequestVotes, count votes. -/
def raft_become_prevoted_candidate (me : Server) (now : Int) : Server × Int × List Send :=
  let me1 := raft_set_current_term me (me.currentTerm + 1)
  let me2 := { me1 with nodes := me1.nodes.map (fun n => { n with voteForMe := false }) }
  let me3 := raft_vote_for_nodeid me2 me2.nodeId
  let me4 := updateNode me3 me3.nodeId (fun n => { n with voteForMe := true })
  let me5 := { me4 with prevote := false }
  let sends := ((me5.nodes.filter (fun n => !(n.id == me5.nodeId) && n.voting)).map
    (raft_send_requestvote me5)).flatten
  let p := raft_count_votes_noprevote me5 now
  (p.1, p.2.1, sends ++ p.2.2)

/-- `raft_count_votes`. -/
def raft_count_votes (me : Server) (now : Int) : Server × Int × List Send :=
  if raft_votes_is_majority (raft_get_num_voting_nodes me) (raft_get_nvotes_for_me me) then
    if me.prevote then raft_become_prevoted_candidate me now
    else
      let p := raft_become_leader me now
      (p.1, 0, p.2)
  else (me, 0, [])

/-- `raft_become_candidate`: refused with `RAFT_ERR_MIGHT_VIOLATE_LEASE` when
`raft_lease_granted(except = self)` holds; otherwise enter the prevote
candidate state, send prevote RequestVotes and count votes. -/
def raft_become_candidate (me : Server) (now etRand : Int) : Server × Int × List Send :=
  if raft_lease_granted me me.nodeId now then (me, RAFT_ERR_MIGHT_VIOLATE_LEASE, [])
  else
    let me1 := { me with state := RAFT_STATE_CANDIDATE, prevote := true }
    let me2 := { me1 with nodes := me1.nodes.map (fun n => { n with voteForMe := false }) }
    let me3 := updateNode me2 me2.nodeId (fun n => { n with voteForMe := true })
    let me4 := { me3 with leaderId := -1, electionTimeoutRand := etRand, electionTimer := now }
    let sends := ((me4.nodes.filter (fun n => !(n.id == me4.nodeId) && n.voting)).map
      (raft_send_requestvote me4)).flatten
    let p := raft_count_votes me4 now
    (p.1, p.2.1, sends ++ p.2.2)

/-- `raft_election_start`. -/
def raft_election_start (me : Server) (now etRand : Int) : Server × Int × List Send :=
  raft_become_candidate me now etRand

/-! ## Applying committed entries and the periodic tick -/

/-- `raft_apply_entry` (the host's `applylog` callback succeeds in the
model). -/
def raft_apply_entry (me : Server) : Server × Int :=
  if raft_snapshot_is_in_progress me then (me, -1)
  else if me.lastAppliedIdx = raft_get_commit_idx me then (me, -1)
  else
    let logIdx := me.lastAppliedIdx + 1
    match log_get_at_idx me.log logIdx with
    | none => (me, -1)
    | some _ =>
      let me1 := { me with lastAppliedIdx := me.lastAppliedIdx + 1 }
      let me2 := if logIdx = me1.votingCfgChangeLogIdx then
          { me1 with votingCfgChangeLogIdx := -1 } else me1
      (me2, 0)

/-- The `while` loop of `raft_apply_all`; fuel bounds the iterations (each
successful `raft_apply_entry` increments `last_applied_idx` by one). -/
def raft_apply_all_loop : Nat → Server → Server × Int
  | 0, me => (me, 0)
  | f + 1, me =>
    if me.lastAppliedIdx < raft_get_commit_idx me then
      let p := raft_apply_entry me
      if p.2 = 0 then raft_apply_all_loop f p.1 else p
    else (me, 0)

/-- `raft_apply_all`. -/
def raft_apply_all (me : Server) : Server × Int :=
  if raft_snapshot_is_in_progress me then (me, 0)
  else raft_apply_all_loop (raft_get_commit_idx me - me.lastAppliedIdx).toNat me

/-- The tail of `raft_periodic`: lazily apply committed entries. -/
def raft_periodic_apply (me : Server) (outs : List Send) : Server × Int × List Send :=
  if me.lastAppliedIdx < raft_get_commit_idx me ∧ ¬ raft_snapshot_is_in_progress me then
    let p := raft_apply_all me
    (p.1, p.2, outs)
  else (me, 0, outs)

/-- `raft_periodic`. -/
def raft_periodic (me : Server) (now etRand : Int) : Server × Int × List Send :=
  if me.state = RAFT_STATE_LEADER then
    if ¬ has_majority_leases me now true then
      let me1 := { raft_become_follower me now etRand with leaderId := -1 }
      raft_periodic_apply me1 []
    else if me.requestTimeout ≤ now - me.electionTimer then
      let p := raft_send_appendentries_all me now
      raft_periodic_apply p.1 p.2
    else raft_periodic_apply me []
  else if me.electionTimeoutRand ≤ now - me.electionTimer ∧
      ¬ raft_snapshot_is_in_progress me then
    match raft_get_my_node me with
    | some n =>
      if n.voting then
        let p := raft_election_start me now etRand
        if p.2.1 ≠ 0 then p
        else raft_periodic_apply p.1 p.2.2
      else raft_periodic_apply me []
    | none => raft_periodic_apply me []
  else raft_periodic_apply me []

/-! ## RequestVote handling (raft_server.c `__should_grant_vote`,
`raft_recv_requestvote`) -/

/-- `__should_grant_vote`: no stale term; for a real vote, `voted_for` must
be unset or the candidate; the candidate's (last_log_term, last_log_idx)
must be at least ours lexicographically. The C asserts that the term at our
current index is available (`assert(got)`); the model returns false on the
unreachable missing case. -/
def should_grant_vote (me : Server) (vr : MsgRV) : Prop :=
  ¬ vr.term < me.currentTerm ∧
  (vr.prevote = true ∨ me.votedFor = -1 ∨ me.votedFor = vr.candidateId) ∧
  raft_get_entry_term me (raft_get_current_idx me) ≠ none ∧
  ((raft_get_entry_term me (raft_get_current_idx me)).getD 0 < vr.lastLogTerm ∨
    (vr.lastLogTerm = (raft_get_entry_term me (raft_get_current_idx me)).getD 0 ∧
      raft_get_current_idx me ≤ vr.lastLogIdx))

instance (me : Server) (vr : MsgRV) : Decidable (should_grant_vote me vr) := by
  unfold should_grant_vote; infer_instance

structure RVOut where
  srv : Server
  rc : Int
  resp : MsgRVResp

/-- The state of `raft_recv_requestvote` after the possible term update (the
`raft_get_current_term < vr->term` branch). -/
def rv_term_updated (me : Server) (vr : MsgRV) (now etRand : Int) : Server :=
  if me.currentTerm < vr.term then
    { raft_become_follower (raft_set_current_term me vr.term) now etRand with leaderId := -1 }
  else me

/-- `raft_recv_requestvote` (the caller passes no node pointer, so the node
is looked up by the candidate id, as when a message arrives from the
network). -/
def raft_recv_requestvote (me : Server) (vr : MsgRV) (now etRand : Int) : RVOut :=
  if me.state = RAFT_STATE_LEADER ∨ raft_lease_granted me vr.candidateId now then
    { srv := me, rc := 0,
      resp := { term := me.currentTerm, voteGranted := RAFT_REQUESTVOTE_ERR_NOT_GRANTED,
                prevote := vr.prevote } }
  else
    let me1 := rv_term_updated me vr now etRand
    if should_grant_vote me1 vr then
      if vr.prevote = true then
        { srv := me1, rc := 0,
          resp := { term := me1.currentTerm, voteGranted := RAFT_REQUESTVOTE_ERR_GRANTED,
                    prevote := vr.prevote } }
      else
        let me2 := { raft_vote_for_nodeid me1 vr.candidateId with
                     leaderId := -1, electionTimer := now }
        { srv := me2, rc := 0,
          resp := { term := me2.currentTerm, voteGranted := RAFT_REQUESTVOTE_ERR_GRANTED,
                    prevote := vr.prevote } }
    else
      let g := if raft_get_node me1 vr.candidateId = none then
          RAFT_REQUESTVOTE_ERR_UNKNOWN_NODE else RAFT_REQUESTVOTE_ERR_NOT_GRANTED
      { srv := me1, rc := 0,
        resp := { term := me1.currentTerm, voteGranted := g, prevote := vr.prevote } }

/-! ## AppendEntries response handling (raft_server.c
`raft_recv_appendentries_response`) -/

structure AerOut where
  srv : Server
  rc : Int
  sends : List Send

/-- The `votes` count of the commit-advancement loop: self plus every
non-self voting node whose `match_idx` is at least `point`. -/
def commit_votes (me : Server) (point : Int) : Nat :=
  1 + (me.nodes.filter
    (fun n => !(n.id == me.nodeId) && n.voting && decide (point ≤ n.matchIdx))).length

/-- The `node_has_sufficient_logs` notification step of the success path of
`raft_recv_appendentries_response` (`node0` is the node as read before any
update; the callback succeeds in the model, so the flag is set). -/
def aer_update_sufficient (me1 : Server) (nid : Int) (node0 : RaftNode) (r : MsgAEResp) :
    Server :=
  if ¬ node0.voting = true ∧ ¬ raft_voting_change_is_in_progress me1 ∧
      raft_get_current_idx me1 ≤ r.currentIdx + 1 ∧ node0.hasSufficientLogs = false then
    updateNode me1 nid (fun n => { n with hasSufficientLogs := true })
  else me1

/-- The tail of the success path of `raft_recv_appendentries_response` once
`match_idx < r.current_idx` is known: update the peer's next/match index,
advance the commit index when the entry at `r.current_idx` carries the
current term and a majority of voting nodes (counting self) have
`match_idx ≥ r.current_idx`, and aggressively send remaining entries. -/
def aer_success_advance (me2 : Server) (nid : Int) (r : MsgAEResp) : AerOut :=
  let me3 := updateNode me2 nid (fun n =>
    { n with nextIdx := r.currentIdx + 1, matchIdx := r.currentIdx })
  let point := r.currentIdx
  let me4 := if ¬ point = 0 ∧ raft_get_commit_idx me3 < point then
      if raft_get_entry_term me3 point = some me3.currentTerm ∧
          raft_get_num_voting_nodes me3 / 2 < commit_votes me3 point then
        raft_set_commit_idx me3 point
      else me3
    else me3
  match raft_get_node me4 nid with
  | some node4 =>
    if node4.nextIdx ≤ raft_get_current_idx me4 then
      { srv := me4, rc := 0, sends := raft_send_appendentries me4 node4 }
    else { srv := me4, rc := 0, sends := [] }
  | none => { srv := me4, rc := 0, sends := [] }

/-- `raft_recv_appendentries_response`. -/
def raft_recv_appendentries_response (me : Server) (nid : Int) (r : MsgAEResp)
    (now etRand : Int) : AerOut :=
  match raft_get_node me nid with
  | none => { srv := me, rc := -1, sends := [] }
  | some node0 =>
    if ¬ raft_is_leader me then { srv := me, rc := RAFT_ERR_NOT_LEADER, sends := [] }
    else if me.currentTerm < r.term then
      { srv := { raft_become_follower (raft_set_current_term me r.term) now etRand with
                 leaderId := -1 }, rc := 0, sends := [] }
    else if ¬ me.currentTerm = r.term then { srv := me, rc := 0, sends := [] }
    else
      let me1 := updateNode me nid (fun n => { n with lease := r.lease })
      let matchIdx := node0.matchIdx
      if r.success = 0 then
        let nextIdx := node0.nextIdx
        if matchIdx = nextIdx - 1 then { srv := me1, rc := 0, sends := [] }
        else
          let newNext := if r.currentIdx < nextIdx - 1 then
              min (r.currentIdx + 1) (raft_get_current_idx me1) else nextIdx - 1
          let me2 := updateNode me1 nid (fun n => { n with nextIdx := newNext })
          match raft_get_node me2 nid with
          | some node2 => { srv := me2, rc := 0, sends := raft_send_appendentries me2 node2 }
          | none => { srv := me2, rc := 0, sends := [] }
      else
        let me2 := aer_update_sufficient me1 nid node0 r
        if r.currentIdx ≤ matchIdx then { srv := me2, rc := 0, sends := [] }
        else aer_success_advance me2 nid r

/-! ## AppendEntries handling (raft_server.c `raft_recv_appendentries`) -/

structure AEOut where
  srv : Server
  rc : Int
  resp : MsgAEResp
  dels : List Int

/-- The decision of the step-3 loop of `raft_recv_appendentries`: walk the
incoming entries against the local log; stop at the first conflict
(shutdown if it would touch a committed index, otherwise truncate there and
append from there), or at the first index past our log. `i` counts entries
already skipped as matching; `cur` is the response `current_idx` accumulator
(the last index examined and matched). -/
inductive ScanRes
  | shutdown (cur : Int)
  | del (delIdx : Int) (i : Nat) (cur : Int)
  | halt (i : Nat) (cur : Int)
deriving Repr, DecidableEq

def scan_entries (me : Server) (prev : Int) : Nat → List Entry → Int → ScanRes
  | i, [], cur => .halt i cur
  | i, e :: rest, cur =>
    let idx := prev + 1 + (i : Int)
    match raft_get_entry_term me idx with
    | some t =>
      if ¬ t = e.term then
        if idx ≤ raft_get_commit_idx me then .shutdown cur
        else .del idx i cur
      else scan_entries me prev (i + 1) rest idx
    | none =>
      if raft_get_current_idx me < idx then .halt i cur
      else scan_entries me prev (i + 1) rest idx

/-- Steps 4 and 5 of `raft_recv_appendentries`: append the entries from
position `i` on in one `log_append` call and advance the commit index to
`min(leader_commit, index of last new or matched entry)`. -/
def recv_ae_append (me : Server) (ae : MsgAE) (i : Nat) (lease now : Int)
    (dels : List Int) : AEOut :=
  let rest := ae.entries.drop i
  let me1 := raft_append_entries me rest now
  let curFinal := ae.prevLogIdx + (i : Int) + (rest.length : Int)
  let me2 := if raft_get_commit_idx me1 < ae.leaderCommit then
      let newCommit := min ae.leaderCommit curFinal
      if raft_get_commit_idx me1 < newCommit then raft_set_commit_idx me1 newCommit else me1
    else me1
  { srv := me2, rc := 0,
    resp := { term := me2.currentTerm, success := 1, currentIdx := curFinal,
              firstIdx := ae.prevLogIdx + 1, lease := lease },
    dels := dels }

/-- The body of `raft_recv_appendentries` after the term checks, on state
`me2` (leader recorded, election timer refreshed). -/
def recv_ae_main (me2 : Server) (ae : MsgAE) (now : Int) : AEOut :=
  let lease := now + me2.electionTimeout
  let prevCheck : Option AEOut :=
    if 0 < ae.prevLogIdx then
      match raft_get_entry_term me2 ae.prevLogIdx with
      | none =>
        if raft_get_current_idx me2 < ae.prevLogIdx then
          some { srv := me2, rc := 0,
                 resp := { term := me2.currentTerm, success := 0,
                           currentIdx := raft_get_current_idx me2,
                           firstIdx := ae.prevLogIdx + 1, lease := lease },
                 dels := [] }
        else none
      | some t =>
        if ¬ t = ae.prevLogTerm then
          if ae.prevLogIdx ≤ raft_get_commit_idx me2 then
            some { srv := me2, rc := RAFT_ERR_SHUTDOWN,
                   resp := { term := me2.currentTerm, success := 0,
                             currentIdx := raft_get_current_idx me2,
                             firstIdx := ae.prevLogIdx + 1, lease := lease },
                   dels := [] }
          else
            let d := raft_delete_entry_from_idx me2 ae.prevLogIdx now
            some { srv := d.srv, rc := d.rc,
                   resp := { term := d.srv.currentTerm, success := 0,
                             currentIdx := raft_get_current_idx d.srv,
                             firstIdx := ae.prevLogIdx + 1, lease := lease },
                   dels := [ae.prevLogIdx] }
        else none
    else none
  match prevCheck with
  | some out => out
  | none =>
    match scan_entries me2 ae.prevLogIdx 0 ae.entries ae.prevLogIdx with
    | .shutdown cur =>
      { srv := me2, rc := RAFT_ERR_SHUTDOWN,
        resp := { term := me2.currentTerm, success := 1, currentIdx := cur,
                  firstIdx := ae.prevLogIdx + 1, lease := lease },
        dels := [] }
    | .del di i cur =>
      let d := raft_delete_entry_from_idx me2 di now
      if ¬ d.rc = 0 then
        { srv := d.srv, rc := d.rc,
          resp := { term := d.srv.currentTerm, success := 1, currentIdx := cur,
                    firstIdx := ae.prevLogIdx + 1, lease := lease },
          dels := [di] }
      else recv_ae_append d.srv ae i lease now [di]
    | .halt i _ => recv_ae_append me2 ae i lease now []

/-- `raft_recv_appendentries` (on a stale term the response's lease field is
left unassigned by the C code; the model reports 0 there). -/
def raft_recv_appendentries (me0 : Server) (nid : Int) (ae : MsgAE)
    (now etRand : Int) : AEOut :=
  if me0.state = RAFT_STATE_CANDIDATE ∧ me0.currentTerm = ae.term then
    recv_ae_main { raft_become_follower me0 now etRand with leaderId := nid, electionTimer := now } ae now
  else if me0.currentTerm < ae.term then
    recv_ae_main { raft_become_follower (raft_set_current_term me0 ae.term) now etRand with
                   leaderId := nid, electionTimer := now } ae now
  else if ae.term < me0.currentTerm then
    { srv := me0, rc := 0,
      resp := { term := me0.currentTerm, success := 0,
                currentIdx := raft_get_current_idx me0,
                firstIdx := ae.prevLogIdx + 1, lease := 0 },
      dels := [] }
  else
    recv_ae_main { me0 with leaderId := nid, electionTimer := now } ae now

/-! ## Client entry submission (raft_server.c `__cfg_change_is_valid`,
`raft_recv_entry`) -/

/-- The voting flag of the node with the given id, or `dflt` when absent. -/
def node_voting_or (me : Server) (id : Int) (dflt : Bool) : Bool :=
  ((raft_get_node me id).map (fun n => n.voting)).getD dflt

/-- `__cfg_change_is_valid`: a change naming self is invalid; additions
require the node to be absent; demote/remove require a voting node;
promote/remove-nonvoting require a non-voting node. -/
def cfg_change_is_valid (me : Server) (e : Entry) : Prop :=
  ¬ e.nodeId = me.nodeId ∧
  ((e.etype = RAFT_LOGTYPE_ADD_NONVOTING_NODE ∨ e.etype = RAFT_LOGTYPE_ADD_NODE) →
    raft_get_node me e.nodeId = none) ∧
  ((e.etype = RAFT_LOGTYPE_DEMOTE_NODE ∨ e.etype = RAFT_LOGTYPE_REMOVE_NODE) →
    node_voting_or me e.nodeId false = true) ∧
  ((e.etype = RAFT_LOGTYPE_PROMOTE_NODE ∨ e.etype = RAFT_LOGTYPE_REMOVE_NONVOTING_NODE) →
    node_voting_or me e.nodeId true = false)

instance (me : Server) (e : Entry) : Decidable (cfg_change_is_valid me e) := by
  unfold cfg_change_is_valid; infer_instance

structure MsgEntryResp where
  id : Int
  idx : Int
  term : Int
deriving Repr, DecidableEq

structure EntryOut where
  srv : Server
  rc : Int
  resp : MsgEntryResp
  sends : List Send

/-- `raft_recv_entry` (on a rejection the C code leaves the caller's
response untouched; the model reports a zeroed response there). -/
def raft_recv_entry (me : Server) (ety : Entry) (now : Int) : EntryOut :=
  if ¬ raft_is_leader me then
    { srv := me, rc := RAFT_ERR_NOT_LEADER, resp := ⟨0, 0, 0⟩, sends := [] }
  else if raft_entry_is_cfg_change ety ∧ raft_snapshot_is_in_progress me then
    { srv := me, rc := RAFT_ERR_SNAPSHOT_IN_PROGRESS, resp := ⟨0, 0, 0⟩, sends := [] }
  else if raft_entry_is_cfg_change ety ∧ raft_entry_is_voting_cfg_change ety ∧
      raft_voting_change_is_in_progress me then
    { srv := me, rc := RAFT_ERR_ONE_VOTING_CHANGE_ONLY, resp := ⟨0, 0, 0⟩, sends := [] }
  else if raft_entry_is_cfg_change ety ∧ ¬ cfg_change_is_valid me ety then
    { srv := me, rc := RAFT_ERR_INVALID_CFG_CHANGE, resp := ⟨0, 0, 0⟩, sends := [] }
  else
    let ety1 := { ety with term := me.currentTerm }
    let me1 := raft_append_entries me [ety1] now
    let sends := ((me1.nodes.filter (fun n => !(n.id == me1.nodeId) && n.voting &&
        (n.nextIdx == raft_get_current_idx me1))).map (raft_send_appendentries me1)).flatten
    let me2 := if raft_get_num_voting_nodes me1 = 1 then
        raft_set_commit_idx me1 (raft_get_current_idx me1) else me1
    let resp : MsgEntryResp :=
      { id := ety1.id, idx := raft_get_current_idx me2, term := me2.currentTerm }
    let me3 := if raft_entry_is_voting_cfg_change ety1 then
        { me2 with votingCfgChangeLogIdx := raft_get_current_idx me2 } else me2
    { srv := me3, rc := 0, resp := resp, sends := sends }

/-! ## Snapshot loading (raft_server.c `raft_begin_load_snapshot`,
`raft_end_load_snapshot`) -/

/-- `raft_begin_load_snapshot`. -/
def raft_begin_load_snapshot (me : Server) (lastTerm lastIdx now : Int) : Server × Int :=
  if lastIdx = -1 then (me, -1)
  else if lastTerm = me.snapshotLastTerm ∧ lastIdx = me.snapshotLastIdx then
    (me, RAFT_ERR_SNAPSHOT_ALREADY_LOADED)
  else if lastIdx ≤ raft_get_commit_idx me then (me, -1)
  else
    let me1 := log_load_from_snapshot me lastIdx lastTerm now
    let me2 := raft_set_commit_idx me1 lastIdx
    let me3 := { me2 with lastAppliedIdx := lastIdx }
    let me4 := raft_set_snapshot_metadata me3 lastTerm me3.lastAppliedIdx
    ({ me4 with nodes := [] }, 0)

/-- `raft_end_load_snapshot`: mark every voting node as having sufficient
logs. -/
def raft_end_load_snapshot (me : Server) : Server :=
  { me with nodes := me.nodes.map (fun n =>
      if n.voting then { n with hasSufficientLogs := true } else n) }

/-! ## Helper lemmas and concrete fixtures -/

@[simp]
theorem updateNode_state (me : Server) (id : Int) (f : RaftNode → RaftNode) :
    (updateNode me id f).state = me.state := rfl

@[simp]
theorem updateNode_log (me : Server) (id : Int) (f : RaftNode → RaftNode) :
    (updateNode me id f).log = me.log := rfl

@[simp]
theorem updateNode_commitIdx (me : Server) (id : Int) (f : RaftNode → RaftNode) :
    (updateNode me id f).commitIdx = me.commitIdx := rfl

@[simp]
theorem updateNode_currentTerm (me : Server) (id : Int) (f : RaftNode → RaftNode) :
    (updateNode me id f).currentTerm = me.currentTerm := rfl

@[simp]
theorem updateNode_nodeId (me : Server) (id : Int) (f : RaftNode → RaftNode) :
    (updateNode me id f).nodeId = me.nodeId := rfl

theorem become_leader_step_state (sid now : Int) (acc : Server × List Send) (n : RaftNode) :
    (become_leader_step sid now acc n).1.state = acc.1.state := by
  simp only [become_leader_step]
  split
  · rfl
  · split <;> simp

theorem become_leader_fold_state (sid now : Int) (l : List RaftNode) (acc : Server × List Send) :
    (l.foldl (become_leader_step sid now) acc).1.state = acc.1.state := by
  induction l generalizing acc with
  | nil => rfl
  | cons n l ih => rw [List.foldl_cons, ih, become_leader_step_state]

theorem raft_become_leader_state (me : Server) (now : Int) :
    (raft_become_leader me now).1.state = RAFT_STATE_LEADER := by
  unfold raft_become_leader
  rw [become_leader_fold_state]

theorem raft_count_votes_noprevote_rc (me : Server) (now : Int) :
    (raft_count_votes_noprevote me now).2.1 = 0 := by
  unfold raft_count_votes_noprevote
  split <;> rfl

theorem raft_count_votes_noprevote_state (me : Server) (now : Int) :
    (raft_count_votes_noprevote me now).1.state = me.state ∨
      (raft_count_votes_noprevote me now).1.state = RAFT_STATE_LEADER := by
  unfold raft_count_votes_noprevote
  split
  · right; exact raft_become_leader_state me now
  · left; rfl

theorem raft_become_prevoted_candidate_rc (me : Server) (now : Int) :
    (raft_become_prevoted_candidate me now).2.1 = 0 := by
  unfold raft_become_prevoted_candidate
  simp [raft_count_votes_noprevote_rc]

theorem raft_become_prevoted_candidate_state (me : Server) (now : Int) :
    (raft_become_prevoted_candidate me now).1.state = me.state ∨
      (raft_become_prevoted_candidate me now).1.state = RAFT_STATE_LEADER := by
  unfold raft_become_prevoted_candidate
  simp only
  have h := raft_count_votes_noprevote_state
    { updateNode (raft_vote_for_nodeid
        { raft_set_current_term me (me.currentTerm + 1) with
          nodes := (raft_set_current_term me (me.currentTerm + 1)).nodes.map
            (fun n => { n with voteForMe := false }) }
        (raft_set_current_term me (me.currentTerm + 1)).nodeId)
      (raft_set_current_term me (me.currentTerm + 1)).nodeId
      (fun n => { n with voteForMe := true }) with prevote := false } now
  simpa [raft_vote_for_nodeid, raft_set_current_term] using h

theorem raft_count_votes_rc (me : Server) (now : Int) :
    (raft_count_votes me now).2.1 = 0 := by
  unfold raft_count_votes
  split
  · split
    · exact raft_become_prevoted_candidate_rc _ _
    · rfl
  · rfl

theorem raft_count_votes_state (me : Server) (now : Int) :
    (raft_count_votes me now).1.state = me.state ∨
      (raft_count_votes me now).1.state = RAFT_STATE_LEADER := by
  unfold raft_count_votes
  split
  · split
    · exact raft_become_prevoted_candidate_state _ _
    · right; exact raft_become_leader_state _ _
  · left; rfl

/-! ## C4 -/

/-- C4: `raft_become_candidate` returns RAFT_ERR_MIGHT_VIOLATE_LEASE leaving
the whole server state (in particular role, current_term, voted_for and
election_timer) unchanged exactly when `lease_granted(except = self)` holds
at the current time `now` — that is, when (first_start is false and
now − start_time < election_timeout) or (leader_id is set, differs from
self, and now − election_timer < election_timeout); otherwise it returns 0
and proceeds to candidacy (role CANDIDATE, or LEADER straight away when the
server alone forms a voting majority). -/
theorem C4_become_candidate_refusal (me : Server) (now etRand : Int) :
    (((raft_become_candidate me now etRand).2.1 = RAFT_ERR_MIGHT_VIOLATE_LEASE ∧
        (raft_become_candidate me now etRand).1 = me) ↔
      raft_lease_granted me me.nodeId now) ∧
    (raft_lease_granted me me.nodeId now ↔
      ((¬ me.firstStart = true ∧ now - me.startTime < me.electionTimeout) ∨
        (me.leaderId ≠ -1 ∧ me.leaderId ≠ me.nodeId ∧
          now - me.electionTimer < me.electionTimeout))) ∧
    (¬ raft_lease_granted me me.nodeId now →
      (raft_become_candidate me now etRand).2.1 = 0 ∧
      ((raft_become_candidate me now etRand).1.state = RAFT_STATE_CANDIDATE ∨
        (raft_become_candidate me now etRand).1.state = RAFT_STATE_LEADER)) := by
  have hmain : ¬ raft_lease_granted me me.nodeId now →
      (raft_become_candidate me now etRand).2.1 = 0 ∧
      ((raft_become_candidate me now etRand).1.state = RAFT_STATE_CANDIDATE ∨
        (raft_become_candidate me now etRand).1.state = RAFT_STATE_LEADER) := by
    intro h
    simp only [raft_become_candidate, if_neg h]
    exact ⟨raft_count_votes_rc _ _,
      (raft_count_votes_state _ now).imp (fun h1 => h1) (fun h1 => h1)⟩
  refine ⟨⟨?_, ?_⟩, Iff.rfl, hmain⟩
  · rintro ⟨h1, _⟩
    by_contra h
    obtain ⟨h0, _⟩ := hmain h
    rw [h0] at h1
    norm_num [RAFT_ERR_MIGHT_VIOLATE_LEASE] at h1
  · intro h
    simp [raft_become_candidate, if_pos h]

/-- A NORMAL entry with the given term and id. -/
def normalEntry (t i : Int) : Entry :=
  { term := t, id := i, etype := RAFT_LOGTYPE_NORMAL, dataLen := 0, nodeId := 0 }

/-- A well-formed physical log of capacity `sz` holding the given entries at
indices 1.. with `front = 0`. -/
def listLog (es : List Entry) (sz : Int) : RaftLog :=
  { size := sz, count := (es.length : Int), front := 0, back := (es.length : Int) % sz,
    base := 0, baseTerm := 0,
    data := fun j => if 0 ≤ j ∧ j < (es.length : Int) then es.getD j.toNat junkEntry else junkEntry }

/-- A single-node follower fixture at term 1. -/
def baseServer : Server :=
  { currentTerm := 1, votedFor := -1, log := listLog [] 10, commitIdx := 0, lastAppliedIdx := 0,
    state := RAFT_STATE_FOLLOWER, prevote := false, leaderId := -1, nodeId := 1,
    electionTimer := 0, electionTimeoutRand := 1000, requestTimeout := 200, electionTimeout := 1000,
    votingCfgChangeLogIdx := -1, snapshotInProgress := false, snapshotLastIdx := 0,
    snapshotLastTerm := 0, startTime := 0, firstStart := true, leaseMaintenanceGrace := 0,
    nodes := [raft_node_new 1] }

/-! ## C10 -/

/-- Fixture for C10: three NORMAL entries at indices 1..3; physically the
log occupies subscripts 0..2 with `front = 0`, `back = 3`, capacity 10. -/
def c10Server : Server :=
  { baseServer with log := listLog [normalEntry 1 1, normalEntry 1 2, normalEntry 1 3] 10 }

/-- C10: the claimed pointer property fails on the code. Deleting from index
1 removes the single run of three entries whose lowest-index entry (index 1)
sits at physical subscript 0, but `log_delete` computes the pop pointer as
`&me->entries[me->back - 1 - k]` = subscript `3 - 1 - 3 = -1`: out of the
array bounds `[0, 10)` (here `back ≤ k`), and not the run's lowest-index
entry. The input log is well-formed. -/
theorem C10_pop_pointer_eval :
    (log_delete c10Server 1 0).pops = [(-1, 3, 1)] ∧
    ¬ (0 : Int) ≤ -1 ∧
    log_subscript c10Server.log 1 = 0 ∧
    LogWF c10Server.log := by decide

/-! ## C6 -/

/-- An ADD_NONVOTING_NODE entry for node 2. -/
def addB : Entry :=
  { term := 1, id := 2, etype := RAFT_LOGTYPE_ADD_NONVOTING_NODE, dataLen := 0, nodeId := 2 }

/-- Fixture for C6: one NORMAL entry at index 1, node table = {self}. -/
def c6Server : Server := { baseServer with log := listLog [normalEntry 1 1] 10 }

/-- C6 fixture after appending the ADD_NONVOTING_NODE(2) batch at index 2. -/
def c6Appended : Server := raft_append_entries c6Server [addB] 0

/-- C6: the round-trip claim fails on the code. Appending
[ADD_NONVOTING_NODE(2)] at index 2 adds node 2 (`offer_log`); deleting from
index 2 restores count, current_idx and the entry below index 2, but the pop
run's pointer is subscript `back - 1 - k = 2 - 1 - 1 = 0` — the NORMAL entry
at index 1 — instead of subscript 1 where the deleted ADD entry lives, so
`raft_pop_log` inverts nothing and node 2 remains: the membership state is
not restored. -/
theorem C6_append_delete_eval :
    c6Server.nodes.map (fun n => n.id) = [1] ∧
    c6Appended.nodes.map (fun n => n.id) = [1, 2] ∧
    (raft_delete_entry_from_idx c6Appended 2 0).srv.log.count = 1 ∧
    raft_get_current_idx (raft_delete_entry_from_idx c6Appended 2 0).srv = 1 ∧
    log_get_at_idx (raft_delete_entry_from_idx c6Appended 2 0).srv.log 1 =
      log_get_at_idx c6Server.log 1 ∧
    (raft_delete_entry_from_idx c6Appended 2 0).srv.nodes.map (fun n => n.id) = [1, 2] ∧
    (raft_delete_entry_from_idx c6Appended 2 0).pops = [(0, 1, 2)] ∧
    log_subscript c6Appended.log 2 = 1 := by decide

/-! ## C7 -/

theorem append_single_cleared (now : Int) (me : Server) (e : Entry)
    (hcfg : ¬ raft_entry_is_cfg_change e) (hsz : 0 < me.log.size) :
    raft_append_entries { me with log := log_clear me.log } [e] now =
      { me with log :=
        { size := me.log.size, count := 1, front := 0, back := 1 % me.log.size, base := 0,
          baseTerm := me.log.baseTerm,
          data := fun j => if 0 ≤ j ∧ j < 1 then e else me.log.data j } } := by
  have h0 : (0 : Int) % me.log.size = 0 := Int.zero_emod _
  simp only [raft_append_entries, log_ensurecapacity, log_clear, List.length_cons,
    List.length_nil, Nat.cast_zero, Nat.cast_one, zero_add]
  rw [if_pos (by omega : (1 : Int) ≤ me.log.size)]
  simp only [log_append_loop, batch_up, log_subscript]
  norm_num [h0, raft_offer_log, raft_offer_log_one, hcfg]
  simp only [log_write_run, sub_zero, List.length_cons, List.length_nil, Nat.cast_zero,
    Nat.cast_one, zero_add]
  norm_num
  funext j
  by_cases hj : 0 ≤ j ∧ j < 1
  · have hj0 : j = 0 := by omega
    subst hj0
    simp
  · simp [hj]

theorem snapshot_sentinel_not_cfg (t : Int) :
    ¬ raft_entry_is_cfg_change
      { term := t, id := 1, etype := RAFT_LOGTYPE_SNAPSHOT, dataLen := 0, nodeId := 0 } := by
  norm_num [raft_entry_is_cfg_change, RAFT_LOGTYPE_SNAPSHOT, RAFT_LOGTYPE_ADD_NODE,
    RAFT_LOGTYPE_ADD_NONVOTING_NODE, RAFT_LOGTYPE_PROMOTE_NODE, RAFT_LOGTYPE_DEMOTE_NODE,
    RAFT_LOGTYPE_REMOVE_NONVOTING_NODE, RAFT_LOGTYPE_REMOVE_NODE]

theorem load_from_snapshot_eq (me : Server) (idx t now : Int) (hsz : 0 < me.log.size) :
    log_load_from_snapshot me idx t now =
      { me with log :=
        { size := me.log.size, count := 1, front := 0, back := 1 % me.log.size,
          base := idx - 1, baseTerm := me.log.baseTerm,
          data := fun j => if 0 ≤ j ∧ j < 1 then
              { term := t, id := 1, etype := RAFT_LOGTYPE_SNAPSHOT, dataLen := 0, nodeId := 0 }
            else me.log.data j } } := by
  unfold log_load_from_snapshot
  simp only []
  rw [append_single_cleared now me _ (snapshot_sentinel_not_cfg t) hsz]

/-- C7: `raft_begin_load_snapshot(T, I)` with `I > commit_idx` and `(T, I)`
different from the current snapshot metadata, followed by
`raft_end_load_snapshot`, yields a log whose only entry is the SNAPSHOT
sentinel at index I (base = I − 1, count = 1, current_idx = I), with
commit_idx = I, last_applied_idx = I, snapshot metadata (T, I) and an empty
peer table. (The well-formedness hypotheses: positive log capacity and a
non-negative commit index.) -/
theorem C7_load_snapshot_roundtrip (me : Server) (t idx now : Int)
    (hsize : 0 < me.log.size)
    (hcommit : 0 ≤ raft_get_commit_idx me)
    (hgt : raft_get_commit_idx me < idx)
    (hnew : ¬ (t = me.snapshotLastTerm ∧ idx = me.snapshotLastIdx)) :
    (raft_begin_load_snapshot me t idx now).2 = 0 ∧
    (raft_end_load_snapshot (raft_begin_load_snapshot me t idx now).1).log.count = 1 ∧
    (raft_end_load_snapshot (raft_begin_load_snapshot me t idx now).1).log.base = idx - 1 ∧
    raft_get_current_idx (raft_end_load_snapshot (raft_begin_load_snapshot me t idx now).1) = idx ∧
    log_get_at_idx (raft_end_load_snapshot (raft_begin_load_snapshot me t idx now).1).log idx =
      some { term := t, id := 1, etype := RAFT_LOGTYPE_SNAPSHOT, dataLen := 0, nodeId := 0 } ∧
    (∀ j, ¬ j = idx →
      log_get_at_idx (raft_end_load_snapshot (raft_begin_load_snapshot me t idx now).1).log j = none) ∧
    (raft_end_load_snapshot (raft_begin_load_snapshot me t idx now).1).commitIdx = idx ∧
    (raft_end_load_snapshot (raft_begin_load_snapshot me t idx now).1).lastAppliedIdx = idx ∧
    (raft_end_load_snapshot (raft_begin_load_snapshot me t idx now).1).snapshotLastTerm = t ∧
    (raft_end_load_snapshot (raft_begin_load_snapshot me t idx now).1).snapshotLastIdx = idx ∧
    (raft_end_load_snapshot (raft_begin_load_snapshot me t idx now).1).nodes = [] := by
  have hne : ¬ idx = -1 := by omega
  have hle : ¬ idx ≤ raft_get_commit_idx me := by omega
  simp only [raft_begin_load_snapshot, if_neg hne, if_neg hnew, if_neg hle]
  rw [load_from_snapshot_eq me idx t now hsize]
  simp only [raft_end_load_snapshot, raft_set_commit_idx, raft_set_snapshot_metadata,
    raft_get_current_idx, log_get_current_idx, List.map_nil]
  refine ⟨trivial, trivial, trivial, by omega, ?_, ?_, trivial, trivial, trivial, trivial,
    trivial⟩
  · simp only [log_get_at_idx, log_has_idx]
    rw [if_pos (by constructor <;> omega)]
    simp only [log_subscript]
    have h2 : (0 : Int) + (idx - (idx - 1 + 1)) = 0 := by omega
    rw [h2, Int.zero_emod]
    norm_num
  · intro j hj
    simp only [log_get_at_idx, log_has_idx]
    rw [if_neg (by omega)]

/-- Witness for C7 at a concrete input: `baseServer`, snapshot (term 5,
index 3). -/
theorem C7_load_snapshot_roundtrip_witness :
    (raft_begin_load_snapshot baseServer 5 3 0).2 = 0 ∧
    (raft_end_load_snapshot (raft_begin_load_snapshot baseServer 5 3 0).1).log.count = 1 ∧
    (raft_end_load_snapshot (raft_begin_load_snapshot baseServer 5 3 0).1).log.base = 3 - 1 ∧
    raft_get_current_idx (raft_end_load_snapshot (raft_begin_load_snapshot baseServer 5 3 0).1) = 3 ∧
    log_get_at_idx (raft_end_load_snapshot (raft_begin_load_snapshot baseServer 5 3 0).1).log 3 =
      some { term := 5, id := 1, etype := RAFT_LOGTYPE_SNAPSHOT, dataLen := 0, nodeId := 0 } ∧
    (∀ j, ¬ j = 3 →
      log_get_at_idx (raft_end_load_snapshot (raft_begin_load_snapshot baseServer 5 3 0).1).log j = none) ∧
    (raft_end_load_snapshot (raft_begin_load_snapshot baseServer 5 3 0).1).commitIdx = 3 ∧
    (raft_end_load_snapshot (raft_begin_load_snapshot baseServer 5 3 0).1).lastAppliedIdx = 3 ∧
    (raft_end_load_snapshot (raft_begin_load_snapshot baseServer 5 3 0).1).snapshotLastTerm = 5 ∧
    (raft_end_load_snapshot (raft_begin_load_snapshot baseServer 5 3 0).1).snapshotLastIdx = 3 ∧
    (raft_end_load_snapshot (raft_begin_load_snapshot baseServer 5 3 0).1).nodes = [] :=
  C7_load_snapshot_roundtrip baseServer 5 3 0 (by decide) (by decide) (by decide) (by decide)

/-! ## C5 -/

theorem raft_apply_entry_sl (me : Server) :
    (raft_apply_entry me).1.state = me.state ∧ (raft_apply_entry me).1.leaderId = me.leaderId := by
  unfold raft_apply_entry
  split
  · exact ⟨rfl, rfl⟩
  split
  · exact ⟨rfl, rfl⟩
  simp only []
  split
  · exact ⟨rfl, rfl⟩
  simp only []
  split <;> exact ⟨rfl, rfl⟩

theorem raft_apply_all_loop_sl (f : Nat) (me : Server) :
    (raft_apply_all_loop f me).1.state = me.state ∧
      (raft_apply_all_loop f me).1.leaderId = me.leaderId := by
  induction f generalizing me with
  | zero => exact ⟨rfl, rfl⟩
  | succ f ih =>
    unfold raft_apply_all_loop
    split
    · simp only []
      split
      · obtain ⟨h1, h2⟩ := ih (raft_apply_entry me).1
        obtain ⟨h3, h4⟩ := raft_apply_entry_sl me
        exact ⟨h1.trans h3, h2.trans h4⟩
      · exact raft_apply_entry_sl me
    · exact ⟨rfl, rfl⟩

theorem raft_periodic_apply_sl (me : Server) (outs : List Send) :
    (raft_periodic_apply me outs).1.state = me.state ∧
      (raft_periodic_apply me outs).1.leaderId = me.leaderId := by
  unfold raft_periodic_apply raft_apply_all
  split
  · split
    · exact ⟨rfl, rfl⟩
    · exact raft_apply_all_loop_sl _ me
  · exact ⟨rfl, rfl⟩

/-- C5: after a `raft_periodic` call made while LEADER at time `now`: when
fewer than ⌈(n_voting+1)/2⌉ voting nodes hold a lease with grace (self is
always counted as holding one; a node holds one while `now < lease + G` or
`now − effective_time < E + G`, per `has_lease`), the server is a FOLLOWER
with leader_id cleared; a leader that does hold such majority leases never
steps down in `raft_periodic`. The third conjunct identifies the code's
majority threshold `n_voting / 2 + 1` with the claim's ⌈(n_voting+1)/2⌉ =
(n_voting+2)/2 in integer arithmetic. -/
theorem C5_periodic_lease_stepdown (me : Server) (now etRand : Int)
    (hL : me.state = RAFT_STATE_LEADER) :
    (¬ has_majority_leases me now true →
      (raft_periodic me now etRand).1.state = RAFT_STATE_FOLLOWER ∧
      (raft_periodic me now etRand).1.leaderId = -1) ∧
    (has_majority_leases me now true →
      (raft_periodic me now etRand).1.state = RAFT_STATE_LEADER) ∧
    (has_majority_leases me now true ↔
      (raft_get_num_voting_nodes me + 2) / 2 ≤ num_voting_with_lease me now true) := by
  refine ⟨?_, ?_, ?_⟩
  · intro h
    simp only [raft_periodic, if_pos hL, if_pos h]
    obtain ⟨h1, h2⟩ := raft_periodic_apply_sl
      { raft_become_follower me now etRand with leaderId := -1 } []
    exact ⟨h1, h2⟩
  · intro h
    simp only [raft_periodic, if_pos hL, if_neg (not_not_intro h)]
    split
    · obtain ⟨h1, _⟩ := raft_periodic_apply_sl (raft_send_appendentries_all me now).1
        (raft_send_appendentries_all me now).2
      rw [h1]
      exact hL
    · obtain ⟨h1, _⟩ := raft_periodic_apply_sl me []
      rw [h1]
      exact hL
  · unfold has_majority_leases
    omega

/-- A single-node leader fixture. -/
def leaderServer : Server := { baseServer with state := RAFT_STATE_LEADER }

/-- Witness for C5 at a concrete input: a single-node leader, which holds
its own (infinite) lease and therefore stays leader. -/
theorem C5_periodic_lease_stepdown_witness :
    ((¬ has_majority_leases leaderServer 100 true →
      (raft_periodic leaderServer 100 50).1.state = RAFT_STATE_FOLLOWER ∧
      (raft_periodic leaderServer 100 50).1.leaderId = -1) ∧
    (has_majority_leases leaderServer 100 true →
      (raft_periodic leaderServer 100 50).1.state = RAFT_STATE_LEADER) ∧
    (has_majority_leases leaderServer 100 true ↔
      (raft_get_num_voting_nodes leaderServer + 2) / 2 ≤
        num_voting_with_lease leaderServer 100 true)) ∧
    has_majority_leases leaderServer 100 true :=
  ⟨C5_periodic_lease_stepdown leaderServer 100 50 (by decide), by decide⟩

/-! ## C2 -/

/-- C2: in `raft_recv_requestvote`, given the receiver is not leader and
`lease_granted(except = candidate_id)` is false, a real (non-prevote) vote
is granted if and only if, on the state after the possible term update
(`rv_term_updated`): vr.term ≥ current_term, voted_for ∈ {none,
candidate_id}, and the candidate's pair (last_log_term, last_log_idx) is ≥
the receiver's pair (last log term, current_idx) in lexicographic order. In
particular a candidate whose pair exactly equals the receiver's satisfies
the right-hand side and is granted. `lastTerm` is the receiver's last log
term (the C asserts its availability). -/
theorem C2_requestvote_grant_iff (me : Server) (vr : MsgRV) (now etRand lastTerm : Int)
    (hL : ¬ me.state = RAFT_STATE_LEADER)
    (hG : ¬ raft_lease_granted me vr.candidateId now)
    (hpv : vr.prevote = false)
    (ht : raft_get_entry_term (rv_term_updated me vr now etRand)
        (raft_get_current_idx (rv_term_updated me vr now etRand)) = some lastTerm) :
    (raft_recv_requestvote me vr now etRand).resp.voteGranted = RAFT_REQUESTVOTE_ERR_GRANTED ↔
      ((rv_term_updated me vr now etRand).currentTerm ≤ vr.term ∧
        ((rv_term_updated me vr now etRand).votedFor = -1 ∨
         (rv_term_updated me vr now etRand).votedFor = vr.candidateId) ∧
        (lastTerm < vr.lastLogTerm ∨
          (vr.lastLogTerm = lastTerm ∧
            raft_get_current_idx (rv_term_updated me vr now etRand) ≤ vr.lastLogIdx))) := by
  have hgr : should_grant_vote (rv_term_updated me vr now etRand) vr ↔
      ((rv_term_updated me vr now etRand).currentTerm ≤ vr.term ∧
        ((rv_term_updated me vr now etRand).votedFor = -1 ∨
         (rv_term_updated me vr now etRand).votedFor = vr.candidateId) ∧
        (lastTerm < vr.lastLogTerm ∨
          (vr.lastLogTerm = lastTerm ∧
            raft_get_current_idx (rv_term_updated me vr now etRand) ≤ vr.lastLogIdx))) := by
    unfold should_grant_vote
    rw [ht]
    simp [hpv, not_lt]
  unfold raft_recv_requestvote
  rw [if_neg (by tauto : ¬ (me.state = RAFT_STATE_LEADER ∨
    raft_lease_granted me vr.candidateId now))]
  simp only []
  by_cases hsg : should_grant_vote (rv_term_updated me vr now etRand) vr
  · rw [if_pos hsg, if_neg (by simp [hpv] : ¬ vr.prevote = true)]
    exact ⟨fun _ => hgr.mp hsg, fun _ => rfl⟩
  · rw [if_neg hsg]
    refine iff_of_false ?_ (fun hr => hsg (hgr.mpr hr))
    split <;> norm_num [RAFT_REQUESTVOTE_ERR_UNKNOWN_NODE, RAFT_REQUESTVOTE_ERR_NOT_GRANTED,
      RAFT_REQUESTVOTE_ERR_GRANTED]

/-- A RequestVote whose (last_log_term, last_log_idx) pair exactly equals
the `c6Server` receiver's pair (1, 1). -/
def c2vr : MsgRV :=
  { term := 1, candidateId := 2, lastLogIdx := 1, lastLogTerm := 1, prevote := false }

/-- Witness for C2 at a concrete input: a follower whose last entry is
(term 1, index 1) receiving a real RequestVote with the exactly equal pair;
the vote is granted. -/
theorem C2_requestvote_grant_iff_witness :
    ((raft_recv_requestvote c6Server c2vr 0 1500).resp.voteGranted =
        RAFT_REQUESTVOTE_ERR_GRANTED ↔
      ((rv_term_updated c6Server c2vr 0 1500).currentTerm ≤ c2vr.term ∧
        ((rv_term_updated c6Server c2vr 0 1500).votedFor = -1 ∨
         (rv_term_updated c6Server c2vr 0 1500).votedFor = c2vr.candidateId) ∧
        ((1 : Int) < c2vr.lastLogTerm ∨
          (c2vr.lastLogTerm = 1 ∧
            raft_get_current_idx (rv_term_updated c6Server c2vr 0 1500) ≤ c2vr.lastLogIdx)))) ∧
    (raft_recv_requestvote c6Server c2vr 0 1500).resp.voteGranted =
      RAFT_REQUESTVOTE_ERR_GRANTED :=
  ⟨C2_requestvote_grant_iff c6Server c2vr 0 1500 1 (by decide) (by decide) (by decide)
    (by decide), by decide⟩

/-! ## C3 -/

theorem find_map_updateNode (l : List RaftNode) (nid : Int) (f : RaftNode → RaftNode)
    (hf : ∀ n, (f n).id = n.id) :
    (l.map (fun n => if n.id = nid then f n else n)).find? (fun n => n.id == nid) =
      (l.find? (fun n => n.id == nid)).map (fun n => if n.id = nid then f n else n) := by
  induction l with
  | nil => rfl
  | cons a l ih =>
    by_cases h : a.id = nid
    · simp [List.find?_cons, h, hf]
    · have hbe : (a.id == nid) = false := by simpa using h
      simp only [List.map_cons, List.find?_cons, if_neg h, hbe]
      exact ih

theorem raft_get_node_updateNode (me : Server) (nid : Int) (f : RaftNode → RaftNode)
    (hf : ∀ n, (f n).id = n.id) :
    raft_get_node (updateNode me nid f) nid =
      (raft_get_node me nid).map (fun n => if n.id = nid then f n else n) := by
  unfold raft_get_node updateNode
  exact find_map_updateNode me.nodes nid f hf

theorem raft_get_entry_term_log_eq {a b : Server} (h : a.log = b.log) (idx : Int) :
    raft_get_entry_term a idx = raft_get_entry_term b idx := by
  unfold raft_get_entry_term log_get_at_idx log_get_base log_get_base_term
  rw [h]

theorem aer_success_advance_commit (me2 : Server) (nid : Int) (r : MsgAEResp) (m2 : RaftNode)
    (h2 : raft_get_node me2 nid = some m2) :
    (aer_success_advance me2 nid r).srv.commitIdx =
      (if ¬ r.currentIdx = 0 ∧ me2.commitIdx < r.currentIdx ∧
          raft_get_entry_term me2 r.currentIdx = some me2.currentTerm ∧
          raft_get_num_voting_nodes (aer_success_advance me2 nid r).srv / 2 <
            commit_votes (aer_success_advance me2 nid r).srv r.currentIdx
        then r.currentIdx else me2.commitIdx) ∧
    (∃ node1, raft_get_node (aer_success_advance me2 nid r).srv nid = some node1 ∧
      node1.matchIdx = r.currentIdx ∧ node1.nextIdx = r.currentIdx + 1) := by
  have hm2id : m2.id = nid := by
    unfold raft_get_node at h2
    have := List.find?_some h2
    simpa using this
  unfold aer_success_advance
  simp only []
  set me3 := updateNode me2 nid
    (fun n => { n with nextIdx := r.currentIdx + 1, matchIdx := r.currentIdx }) with hme3
  have h3 : raft_get_node me3 nid =
      some { m2 with nextIdx := r.currentIdx + 1, matchIdx := r.currentIdx } := by
    rw [hme3, raft_get_node_updateNode me2 nid
      (fun n => { n with nextIdx := r.currentIdx + 1, matchIdx := r.currentIdx })
      (fun n => rfl), h2]
    simp [hm2id]
  by_cases hA : ¬ r.currentIdx = 0 ∧ raft_get_commit_idx me3 < r.currentIdx
  · by_cases hB : raft_get_entry_term me3 r.currentIdx = some me3.currentTerm ∧
        raft_get_num_voting_nodes me3 / 2 < commit_votes me3 r.currentIdx
    · simp only [if_pos hA, if_pos hB]
      have h4 : raft_get_node (raft_set_commit_idx me3 r.currentIdx) nid =
          some { m2 with nextIdx := r.currentIdx + 1, matchIdx := r.currentIdx } := h3
      have hcond : ¬ r.currentIdx = 0 ∧ me2.commitIdx < r.currentIdx ∧
          raft_get_entry_term me2 r.currentIdx = some me2.currentTerm ∧
          raft_get_num_voting_nodes (raft_set_commit_idx me3 r.currentIdx) / 2 <
            commit_votes (raft_set_commit_idx me3 r.currentIdx) r.currentIdx :=
        ⟨hA.1, hA.2, hB.1, hB.2⟩
      rw [h4]
      simp only []
      split
      all_goals refine ⟨?_, ⟨_, h4, rfl, rfl⟩⟩
      all_goals first
        | rfl
        | (show (raft_set_commit_idx me3 r.currentIdx).commitIdx =
            if ¬ r.currentIdx = 0 ∧ me2.commitIdx < r.currentIdx ∧
                raft_get_entry_term me2 r.currentIdx = some me2.currentTerm ∧
                raft_get_num_voting_nodes (raft_set_commit_idx me3 r.currentIdx) / 2 <
                  commit_votes (raft_set_commit_idx me3 r.currentIdx) r.currentIdx
              then r.currentIdx else me2.commitIdx
           rw [if_pos hcond])
    · simp only [if_pos hA, if_neg hB]
      have hcond : ¬ (¬ r.currentIdx = 0 ∧ me2.commitIdx < r.currentIdx ∧
          raft_get_entry_term me2 r.currentIdx = some me2.currentTerm ∧
          raft_get_num_voting_nodes me3 / 2 < commit_votes me3 r.currentIdx) := by
        intro hc
        exact hB ⟨hc.2.2.1, hc.2.2.2⟩
      rw [h3]
      simp only []
      split
      all_goals refine ⟨?_, ⟨_, h3, rfl, rfl⟩⟩
      all_goals first
        | rfl
        | (show me3.commitIdx =
            if ¬ r.currentIdx = 0 ∧ me2.commitIdx < r.currentIdx ∧
                raft_get_entry_term me2 r.currentIdx = some me2.currentTerm ∧
                raft_get_num_voting_nodes me3 / 2 < commit_votes me3 r.currentIdx
              then r.currentIdx else me2.commitIdx
           rw [if_neg hcond])
  · simp only [if_neg hA]
    have hcond : ¬ (¬ r.currentIdx = 0 ∧ me2.commitIdx < r.currentIdx ∧
        raft_get_entry_term me2 r.currentIdx = some me2.currentTerm ∧
        raft_get_num_voting_nodes me3 / 2 < commit_votes me3 r.currentIdx) := by
      intro hc
      exact hA ⟨hc.1, hc.2.1⟩
    rw [h3]
    simp only []
    split
    all_goals refine ⟨?_, ⟨_, h3, rfl, rfl⟩⟩
    all_goals first
      | rfl
      | (show me3.commitIdx =
          if ¬ r.currentIdx = 0 ∧ me2.commitIdx < r.currentIdx ∧
              raft_get_entry_term me2 r.currentIdx = some me2.currentTerm ∧
              raft_get_num_voting_nodes me3 / 2 < commit_votes me3 r.currentIdx
            then r.currentIdx else me2.commitIdx
         rw [if_neg hcond])

theorem aer_update_sufficient_commitIdx (me1 : Server) (nid : Int) (node0 : RaftNode)
    (r : MsgAEResp) :
    (aer_update_sufficient me1 nid node0 r).commitIdx = me1.commitIdx := by
  unfold aer_update_sufficient
  split <;> rfl

theorem aer_update_sufficient_currentTerm (me1 : Server) (nid : Int) (node0 : RaftNode)
    (r : MsgAEResp) :
    (aer_update_sufficient me1 nid node0 r).currentTerm = me1.currentTerm := by
  unfold aer_update_sufficient
  split <;> rfl

theorem aer_update_sufficient_log (me1 : Server) (nid : Int) (node0 : RaftNode)
    (r : MsgAEResp) :
    (aer_update_sufficient me1 nid node0 r).log = me1.log := by
  unfold aer_update_sufficient
  split <;> rfl

theorem aer_update_sufficient_get_node (me1 : Server) (nid : Int) (node0 m1 : RaftNode)
    (r : MsgAEResp) (h : raft_get_node me1 nid = some m1) :
    ∃ m2, raft_get_node (aer_update_sufficient me1 nid node0 r) nid = some m2 := by
  unfold aer_update_sufficient
  split
  · rw [raft_get_node_updateNode me1 nid
      (fun n => { n with hasSufficientLogs := true }) (fun n => rfl), h]
    exact ⟨_, rfl⟩
  · exact ⟨m1, h⟩

/-- C3: in `raft_recv_appendentries_response`, on a success response
carrying the current term with `r.current_idx` greater than the peer's
`match_idx`, the commit index is advanced to `r.current_idx` exactly when
the locally stored term at `r.current_idx` equals the current term and a
strict majority of voting nodes — counting self, and with the responding
peer's `match_idx` already updated to `r.current_idx`, as witnessed by the
second conjunct — have `match_idx ≥ r.current_idx` (`commit_votes` over the
handler's final node table); when either condition fails, `commit_idx` is
left unchanged by the handler. (The `r.current_idx ≠ 0` and
`commit_idx < r.current_idx` guards are the code's; with a committed index
present they are implied.) -/
theorem C3_commit_advance (me : Server) (nid : Int) (r : MsgAEResp) (now etRand : Int)
    (node0 : RaftNode)
    (hnode : raft_get_node me nid = some node0)
    (hL : me.state = RAFT_STATE_LEADER)
    (hterm : r.term = me.currentTerm)
    (hsucc : ¬ r.success = 0)
    (hmatch : node0.matchIdx < r.currentIdx) :
    (raft_recv_appendentries_response me nid r now etRand).srv.commitIdx =
      (if ¬ r.currentIdx = 0 ∧ me.commitIdx < r.currentIdx ∧
          raft_get_entry_term me r.currentIdx = some me.currentTerm ∧
          raft_get_num_voting_nodes (raft_recv_appendentries_response me nid r now etRand).srv / 2 <
            commit_votes (raft_recv_appendentries_response me nid r now etRand).srv r.currentIdx
        then r.currentIdx else me.commitIdx) ∧
    (∃ node1,
      raft_get_node (raft_recv_appendentries_response me nid r now etRand).srv nid = some node1 ∧
      node1.matchIdx = r.currentIdx ∧ node1.nextIdx = r.currentIdx + 1) := by
  have hn0id : node0.id = nid := by
    unfold raft_get_node at hnode
    have := List.find?_some hnode
    simpa using this
  unfold raft_recv_appendentries_response
  rw [hnode]
  simp only []
  rw [if_neg (by simp [raft_is_leader, hL]), if_neg (by omega : ¬ me.currentTerm < r.term),
    if_neg (by omega : ¬ ¬ me.currentTerm = r.term), if_neg hsucc,
    if_neg (by omega : ¬ r.currentIdx ≤ node0.matchIdx)]
  have h1 : raft_get_node (updateNode me nid (fun n => { n with lease := r.lease })) nid =
      some { node0 with lease := r.lease } := by
    rw [raft_get_node_updateNode me nid (fun n => { n with lease := r.lease })
      (fun n => rfl), hnode]
    simp [hn0id]
  obtain ⟨m2, hm2⟩ := aer_update_sufficient_get_node
    (updateNode me nid (fun n => { n with lease := r.lease })) nid node0
    { node0 with lease := r.lease } r h1
  have core := aer_success_advance_commit
    (aer_update_sufficient (updateNode me nid (fun n => { n with lease := r.lease })) nid node0 r)
    nid r m2 hm2
  have hcom : (aer_update_sufficient (updateNode me nid
      (fun n => { n with lease := r.lease })) nid node0 r).commitIdx = me.commitIdx :=
    aer_update_sufficient_commitIdx _ _ _ _
  have hct : (aer_update_sufficient (updateNode me nid
      (fun n => { n with lease := r.lease })) nid node0 r).currentTerm = me.currentTerm :=
    aer_update_sufficient_currentTerm _ _ _ _
  have hlg : raft_get_entry_term (aer_update_sufficient (updateNode me nid
      (fun n => { n with lease := r.lease })) nid node0 r) r.currentIdx =
      raft_get_entry_term me r.currentIdx :=
    raft_get_entry_term_log_eq (aer_update_sufficient_log _ _ _ _) _
  simp only [hcom, hct, hlg] at core
  exact core

/-- A voting peer (id 2) of the two-node leader fixture, not yet matched. -/
def peerNode2 : RaftNode := { raft_node_new 2 with nextIdx := 1 }

/-- A two-node leader fixture: self 1 and voting peer 2, one entry of term 1
at index 1, commit 0. -/
def c3Server : Server :=
  { c6Server with state := RAFT_STATE_LEADER, nodes := [raft_node_new 1, peerNode2] }

/-- A success response from peer 2 acknowledging index 1 at the current
term. -/
def c3resp : MsgAEResp :=
  { term := 1, success := 1, currentIdx := 1, firstIdx := 1, lease := 500 }

/-- Witness for C3 at a concrete input: with both voting nodes at
match_idx ≥ 1 (self plus the acknowledging peer) and term 1 stored at index
1, the commit index advances to 1. -/
theorem C3_commit_advance_witness :
    ((raft_recv_appendentries_response c3Server 2 c3resp 0 0).srv.commitIdx =
      (if ¬ c3resp.currentIdx = 0 ∧ c3Server.commitIdx < c3resp.currentIdx ∧
          raft_get_entry_term c3Server c3resp.currentIdx = some c3Server.currentTerm ∧
          raft_get_num_voting_nodes (raft_recv_appendentries_response c3Server 2 c3resp 0 0).srv / 2 <
            commit_votes (raft_recv_appendentries_response c3Server 2 c3resp 0 0).srv c3resp.currentIdx
        then c3resp.currentIdx else c3Server.commitIdx) ∧
    (∃ node1,
      raft_get_node (raft_recv_appendentries_response c3Server 2 c3resp 0 0).srv 2 = some node1 ∧
      node1.matchIdx = c3resp.currentIdx ∧ node1.nextIdx = c3resp.currentIdx + 1)) ∧
    (raft_recv_appendentries_response c3Server 2 c3resp 0 0).srv.commitIdx = 1 :=
  ⟨C3_commit_advance c3Server 2 c3resp 0 0 peerNode2 (by decide) (by decide) (by decide)
    (by decide) (by decide), by decide⟩

/-! ## C9 -/

/-- C9 (amended): in `raft_recv_appendentries_response`, on a failure
(success = 0) response carrying the current term, when the peer's
`match_idx < next_idx − 1` — provided additionally that the response's
`current_idx` is at least the peer's `match_idx`, that
`next_idx ≤ current_idx + 1`, and that the log base is at most the peer's
`match_idx` (so no InstallSnapshot is needed) — the peer's `next_idx` is set
to a value that is at least `match_idx + 1` and at most
`min(r.current_idx + 1, current_idx)`, and an AppendEntries is immediately
re-sent to that peer. Without the three added hypotheses both bounds and
the message kind can fail (see the counterexample). -/
theorem C9_fail_retry_amended (me : Server) (nid : Int) (r : MsgAEResp) (now etRand : Int)
    (node0 : RaftNode)
    (hnode : raft_get_node me nid = some node0)
    (hL : me.state = RAFT_STATE_LEADER)
    (hterm : r.term = me.currentTerm)
    (hfail : r.success = 0)
    (hlt : node0.matchIdx < node0.nextIdx - 1)
    (hmrc : node0.matchIdx ≤ r.currentIdx)
    (hnc : node0.nextIdx ≤ raft_get_current_idx me + 1)
    (hbase : me.log.base ≤ node0.matchIdx) :
    (∃ n1, raft_get_node (raft_recv_appendentries_response me nid r now etRand).srv nid =
        some n1 ∧
      node0.matchIdx + 1 ≤ n1.nextIdx ∧
      n1.nextIdx ≤ min (r.currentIdx + 1) (raft_get_current_idx me)) ∧
    (∃ m, (raft_recv_appendentries_response me nid r now etRand).sends =
      [⟨nid, Msg.appendentries m⟩]) := by
  have hn0id : node0.id = nid := by
    unfold raft_get_node at hnode
    have := List.find?_some hnode
    simpa using this
  subst hn0id
  unfold raft_recv_appendentries_response
  rw [hnode]
  simp only []
  rw [if_neg (by simp [raft_is_leader, hL]), if_neg (by omega : ¬ me.currentTerm < r.term),
    if_neg (by omega : ¬ ¬ me.currentTerm = r.term), if_pos hfail,
    if_neg (by omega : ¬ node0.matchIdx = node0.nextIdx - 1)]
  have h1 : raft_get_node (updateNode me node0.id (fun n => { n with lease := r.lease }))
      node0.id = some { node0 with lease := r.lease } := by
    rw [raft_get_node_updateNode me node0.id (fun n => { n with lease := r.lease })
      (fun n => rfl), hnode]
    simp
  have hci : raft_get_current_idx (updateNode me node0.id
      (fun n => { n with lease := r.lease })) = raft_get_current_idx me := rfl
  rw [hci]
  set newNext := (if r.currentIdx < node0.nextIdx - 1 then
      min (r.currentIdx + 1) (raft_get_current_idx me) else node0.nextIdx - 1) with hnn
  have h2 : raft_get_node (updateNode (updateNode me node0.id
      (fun n => { n with lease := r.lease }))
      node0.id (fun n => { n with nextIdx := newNext })) node0.id =
      some { node0 with lease := r.lease, nextIdx := newNext } := by
    rw [raft_get_node_updateNode _ node0.id (fun n => { n with nextIdx := newNext })
      (fun n => rfl), h1]
    simp
  rw [h2]
  simp only []
  have hnnlo : node0.matchIdx + 1 ≤ newNext := by
    rw [hnn]
    split <;> omega
  have hnnhi : newNext ≤ min (r.currentIdx + 1) (raft_get_current_idx me) := by
    rw [hnn]
    split <;> omega
  have hbn : ¬ ({ node0 with lease := r.lease, nextIdx := newNext } : RaftNode).nextIdx ≤
      log_get_base (updateNode (updateNode me node0.id (fun n => { n with lease := r.lease }))
        node0.id (fun n => { n with nextIdx := newNext })).log := by
    show ¬ newNext ≤ log_get_base me.log
    unfold log_get_base
    omega
  unfold raft_send_appendentries
  rw [if_neg hbn]
  exact ⟨⟨_, h2, hnnlo, hnnhi⟩, ⟨_, rfl⟩⟩

/-- A log of five term-1 entries at indices 1..5. -/
def c9log5 : RaftLog :=
  listLog [normalEntry 1 1, normalEntry 1 2, normalEntry 1 3, normalEntry 1 4,
    normalEntry 1 5] 10

/-- Peer 2 with match_idx 3 and next_idx 5. -/
def c9aNode : RaftNode := { raft_node_new 2 with matchIdx := 3, nextIdx := 5 }

def c9aServer : Server :=
  { baseServer with
    state := RAFT_STATE_LEADER, log := c9log5, nodes := [raft_node_new 1, c9aNode] }

/-- A failure response whose current_idx (0) is below the peer's match_idx. -/
def c9aResp : MsgAEResp := { term := 1, success := 0, currentIdx := 0, firstIdx := 1, lease := 0 }

/-- Peer 2 with match_idx 3 and next_idx 12 (beyond current_idx + 1 = 6). -/
def c9bNode : RaftNode := { raft_node_new 2 with matchIdx := 3, nextIdx := 12 }

def c9bServer : Server :=
  { baseServer with
    state := RAFT_STATE_LEADER, log := c9log5, nodes := [raft_node_new 1, c9bNode] }

def c9bResp : MsgAEResp := { term := 1, success := 0, currentIdx := 30, firstIdx := 1, lease := 0 }

/-- A compacted log: base 5 (base term 1) with entries at indices 6 and 7. -/
def c9cLog : RaftLog :=
  { listLog [normalEntry 1 6, normalEntry 1 7] 10 with base := 5, baseTerm := 1 }

/-- Peer 2 with match_idx 1 and next_idx 4, both below the log base 5. -/
def c9cNode : RaftNode := { raft_node_new 2 with matchIdx := 1, nextIdx := 4 }

def c9cServer : Server :=
  { baseServer with
    state := RAFT_STATE_LEADER, log := c9cLog, nodes := [raft_node_new 1, c9cNode] }

def c9cResp : MsgAEResp := { term := 1, success := 0, currentIdx := 2, firstIdx := 1, lease := 0 }

/-- C9 counterexample: three concrete inputs, each satisfying the claim's
stated preconditions (leader, failure response at the current term,
match_idx < next_idx − 1), on which the claim as stated fails. (a) With
r.current_idx = 0 below match_idx = 3, next_idx is set to 1 < match_idx + 1:
the lower bound fails. (b) With next_idx = 12 beyond current_idx + 1 = 6
and r.current_idx = 30, next_idx is set to 11 > min(31, 5): the upper bound
fails. (c) With a log compacted to base 5 and the retry point at 3 ≤ base,
an InstallSnapshot — not an AppendEntries — is sent. -/
theorem C9_fail_retry_counterexample :
    (c9aServer.state = RAFT_STATE_LEADER ∧ raft_get_node c9aServer 2 = some c9aNode ∧
      c9aResp.term = c9aServer.currentTerm ∧ c9aResp.success = 0 ∧
      c9aNode.matchIdx < c9aNode.nextIdx - 1 ∧
      ((raft_get_node (raft_recv_appendentries_response c9aServer 2 c9aResp 0 0).srv 2).map
        (fun n => n.nextIdx)) = some 1 ∧
      ¬ c9aNode.matchIdx + 1 ≤ (1 : Int)) ∧
    (c9bServer.state = RAFT_STATE_LEADER ∧ raft_get_node c9bServer 2 = some c9bNode ∧
      c9bResp.term = c9bServer.currentTerm ∧ c9bResp.success = 0 ∧
      c9bNode.matchIdx < c9bNode.nextIdx - 1 ∧
      ((raft_get_node (raft_recv_appendentries_response c9bServer 2 c9bResp 0 0).srv 2).map
        (fun n => n.nextIdx)) = some 11 ∧
      ¬ (11 : Int) ≤ min (c9bResp.currentIdx + 1) (raft_get_current_idx c9bServer)) ∧
    (c9cServer.state = RAFT_STATE_LEADER ∧ raft_get_node c9cServer 2 = some c9cNode ∧
      c9cResp.term = c9cServer.currentTerm ∧ c9cResp.success = 0 ∧
      c9cNode.matchIdx < c9cNode.nextIdx - 1 ∧
      (raft_recv_appendentries_response c9cServer 2 c9cResp 0 0).sends =
        [⟨2, Msg.installsnapshot { term := 1, lastIdx := 5, lastTerm := 1 }⟩]) := by
  decide

/-- A failure response compatible with the amended hypotheses for
`c9aServer`. -/
def c9dResp : MsgAEResp := { term := 1, success := 0, currentIdx := 10, firstIdx := 1, lease := 0 }

/-- Witness for the amended C9 at a concrete input: next_idx decremented to
4 ∈ [match+1, min(r.current_idx+1, current_idx)] and an AppendEntries
re-sent. -/
theorem C9_fail_retry_amended_witness :
    ((∃ n1, raft_get_node (raft_recv_appendentries_response c9aServer 2 c9dResp 0 0).srv 2 =
        some n1 ∧
      c9aNode.matchIdx + 1 ≤ n1.nextIdx ∧
      n1.nextIdx ≤ min (c9dResp.currentIdx + 1) (raft_get_current_idx c9aServer)) ∧
    (∃ m, (raft_recv_appendentries_response c9aServer 2 c9dResp 0 0).sends =
      [⟨2, Msg.appendentries m⟩])) :=
  C9_fail_retry_amended c9aServer 2 c9dResp 0 0 c9aNode (by decide) (by decide) (by decide)
    (by decide) (by decide) (by decide) (by decide) (by decide)

/-! ## C8 -/

/-- The doubling loop of `__ensurecapacity` reaches the target when the
starting size is positive and the fuel allows enough doublings. -/
theorem growSize_ge (f : Nat) (s t : Int) (hs : 0 < s) (h : t ≤ 2 ^ f * s) :
    t ≤ growSize f s t := by
  induction f generalizing s with
  | zero => simpa using h
  | succ f ih =>
    unfold growSize
    split
    · assumption
    · refine ih (2 * s) (by omega) ?_
      have h2 : (2 : Int) ^ (f + 1) * s = 2 ^ f * (2 * s) := by ring
      omega


/-- `__ensurecapacity` for one extra entry on a well-formed log: count, base
and base term are kept, the capacity now has room, and `back` stays the
physical slot one past the stored run. -/
theorem log_ensurecapacity_one (l : RaftLog) (hwf : LogWF l) :
    (log_ensurecapacity l 1).count = l.count ∧
    (log_ensurecapacity l 1).base = l.base ∧
    (log_ensurecapacity l 1).baseTerm = l.baseTerm ∧
    0 < (log_ensurecapacity l 1).size ∧
    l.count + 1 ≤ (log_ensurecapacity l 1).size ∧
    ((log_ensurecapacity l 1).front + l.count) % (log_ensurecapacity l 1).size =
      (log_ensurecapacity l 1).back := by
  obtain ⟨hsz0, hfr0, hfrlt, hcnt0, hcntle, hbk⟩ := hwf
  unfold log_ensurecapacity
  split
  · exact ⟨rfl, rfl, rfl, hsz0, by omega, hbk.symm⟩
  · simp only []
    have hge : l.count + 1 ≤ growSize (l.count + 1).toNat l.size (l.count + 1) := by
      refine growSize_ge _ _ _ hsz0 ?_
      have h1 : ((l.count + 1).toNat : Int) = l.count + 1 := by omega
      have h2 : (l.count + 1).toNat < 2 ^ (l.count + 1).toNat := Nat.lt_two_pow _
      have h3 : ((l.count + 1).toNat : Int) < (2 : Int) ^ (l.count + 1).toNat := by
        exact_mod_cast h2
      have h4 : (0 : Int) < 2 ^ (l.count + 1).toNat := by positivity
      nlinarith
    refine ⟨by trivial, by trivial, by trivial, by omega, by exact hge, ?_⟩
    have h5 : (0 + l.count) % growSize (l.count + 1).toNat l.size (l.count + 1) = l.count := by
      rw [zero_add]
      exact Int.emod_eq_of_lt hcnt0 (by omega)
    exact h5

/-- `raft_add_node_internal` only touches the node table (and possibly the
own-id field): log, commit index and term are kept. -/
theorem raft_add_node_internal_keeps (me : Server) (id : Int) (b : Bool) (now : Int) :
    (raft_add_node_internal me id b now).1.log = me.log ∧
    (raft_add_node_internal me id b now).1.commitIdx = me.commitIdx ∧
    (raft_add_node_internal me id b now).1.currentTerm = me.currentTerm := by
  unfold raft_add_node_internal
  split
  · exact ⟨rfl, rfl, rfl⟩
  · simp only []
    refine ⟨?_, ?_, ?_⟩ <;> (split <;> rfl)

/-- `raft_add_non_voting_node_internal` keeps log, commit index and term. -/
theorem raft_add_non_voting_node_internal_keeps (me : Server) (id : Int) (b : Bool)
    (now : Int) :
    (raft_add_non_voting_node_internal me id b now).1.log = me.log ∧
    (raft_add_non_voting_node_internal me id b now).1.commitIdx = me.commitIdx ∧
    (raft_add_non_voting_node_internal me id b now).1.currentTerm = me.currentTerm := by
  unfold raft_add_non_voting_node_internal
  obtain ⟨k1, k2, k3⟩ := raft_add_node_internal_keeps me id b now
  split
  · rename_i me1 heq
    have h2 := congrArg Prod.fst heq
    rw [h2] at k1 k2 k3
    exact ⟨k1, k2, k3⟩
  · rename_i me1 n heq
    have h2 := congrArg Prod.fst heq
    rw [h2] at k1 k2 k3
    exact ⟨k1, k2, k3⟩

/-- `raft_offer_log`'s per-entry membership side effects never touch the
log, the commit index or the term. -/
theorem raft_offer_log_one_keeps (s : Server) (e : Entry) (i now : Int) :
    (raft_offer_log_one s e i now).log = s.log ∧
    (raft_offer_log_one s e i now).commitIdx = s.commitIdx ∧
    (raft_offer_log_one s e i now).currentTerm = s.currentTerm := by
  unfold raft_offer_log_one
  split
  · simp only []
    refine ⟨?_, ?_, ?_⟩ <;>
      (repeat' split) <;>
      first
        | rfl
        | exact (raft_add_non_voting_node_internal_keeps _ _ _ _).1
        | exact (raft_add_non_voting_node_internal_keeps _ _ _ _).2.1
        | exact (raft_add_non_voting_node_internal_keeps _ _ _ _).2.2
        | exact (raft_add_node_internal_keeps _ _ _ _).1
        | exact (raft_add_node_internal_keeps _ _ _ _).2.1
        | exact (raft_add_node_internal_keeps _ _ _ _).2.2
  · exact ⟨rfl, rfl, rfl⟩

/-- `raft_offer_log` on a single-entry run. -/
theorem raft_offer_log_single (s : Server) (e : Entry) (i now : Int) :
    raft_offer_log s [e] i now = raft_offer_log_one s e i now := by
  unfold raft_offer_log
  simp [List.enum]

/-- The `log_append` copy loop on a single entry: one run of length 1 is
written at `back`, and the server is notified once at the append index. -/
theorem log_append_loop_one (me : Server) (L : RaftLog) (e : Entry) (now : Int) :
    log_append_loop now 1 { me with log := L } [e] =
      raft_offer_log_one
        { me with log := { log_write_run L L.back [e] with
            count := L.count + 1, back := (L.back + 1) % L.size } }
        e (L.base + L.count + 1) now := by
  have hk : batch_up L (L.base + L.count + 1) 1 = 1 := by
    unfold batch_up
    have h1 : L.base + L.count + 1 + 1 - 1 = L.base + L.count + 1 := by ring
    rw [h1]
    simp
  simp only [log_append_loop, List.length_cons, List.length_nil, Nat.cast_zero,
    Nat.cast_one, zero_add, hk]
  norm_num [raft_offer_log_single]
  rfl

/-- Appending a single entry to a well-formed log: the count grows by one,
the base is kept, the entry is readable at the new current index, and the
commit index and term are untouched. -/
theorem raft_append_entries_one (me : Server) (e : Entry) (now : Int) (hwf : LogWF me.log) :
    (raft_append_entries me [e] now).log.count = me.log.count + 1 ∧
    (raft_append_entries me [e] now).log.base = me.log.base ∧
    log_get_at_idx (raft_append_entries me [e] now).log (me.log.base + me.log.count + 1) =
      some e ∧
    (raft_append_entries me [e] now).commitIdx = me.commitIdx ∧
    (raft_append_entries me [e] now).currentTerm = me.currentTerm := by
  have hcnt0 : 0 ≤ me.log.count := hwf.2.2.2.1
  obtain ⟨hc, hb, hbt, hsz, hroom, hback⟩ := log_ensurecapacity_one me.log hwf
  set L := log_ensurecapacity me.log 1 with hL
  have he : raft_append_entries me [e] now = raft_offer_log_one
      { me with log := { log_write_run L L.back [e] with
          count := L.count + 1, back := (L.back + 1) % L.size } }
      e (L.base + L.count + 1) now := by
    unfold raft_append_entries
    simp only [List.length_cons, List.length_nil, Nat.cast_zero, Nat.cast_one, zero_add]
    exact log_append_loop_one me L e now
  obtain ⟨kl, kc, kt⟩ := raft_offer_log_one_keeps
    { me with log := { log_write_run L L.back [e] with
        count := L.count + 1, back := (L.back + 1) % L.size } }
    e (L.base + L.count + 1) now
  rw [he, kl, kc, kt]
  refine ⟨by show L.count + 1 = me.log.count + 1; omega,
    by show L.base = me.log.base; omega, ?_, rfl, rfl⟩
  simp only [log_get_at_idx, log_has_idx, log_write_run]
  split
  · have h7 : me.log.base + me.log.count + 1 - (L.base + 1) = me.log.count := by omega
    simp only [log_subscript, log_write_run, h7, hback]
    norm_num
  · rename_i hcond
    exact absurd ⟨by omega, by omega⟩ hcond

/-- C8: `raft_recv_entry` returns NOT_LEADER when the server is not leader;
for cfg-change entries it returns SNAPSHOT_IN_PROGRESS while a snapshot is
in progress, ONE_VOTING_CHANGE_ONLY when a voting cfg change is already in
flight, and INVALID_CFG_CHANGE for structurally invalid changes (any change
naming self is invalid), each rejection leaving the server — all state and
the log — unchanged; on success (rc 0) the entry is appended with
`term = current_term` at index `current_idx + 1`, and commit_idx is advanced
to that index within the same call exactly when the cluster then has exactly
one voting node (otherwise it is unchanged). -/
theorem C8_recv_entry (me : Server) (ety : Entry) (now : Int) (hwf : LogWF me.log) :
    (¬ raft_is_leader me → (raft_recv_entry me ety now).rc = RAFT_ERR_NOT_LEADER ∧
      (raft_recv_entry me ety now).srv = me) ∧
    (raft_is_leader me → raft_entry_is_cfg_change ety → raft_snapshot_is_in_progress me →
      (raft_recv_entry me ety now).rc = RAFT_ERR_SNAPSHOT_IN_PROGRESS ∧
      (raft_recv_entry me ety now).srv = me) ∧
    (raft_is_leader me → ¬ raft_snapshot_is_in_progress me →
      raft_entry_is_cfg_change ety → raft_entry_is_voting_cfg_change ety →
      raft_voting_change_is_in_progress me →
      (raft_recv_entry me ety now).rc = RAFT_ERR_ONE_VOTING_CHANGE_ONLY ∧
      (raft_recv_entry me ety now).srv = me) ∧
    (raft_is_leader me → ¬ raft_snapshot_is_in_progress me →
      ¬ (raft_entry_is_voting_cfg_change ety ∧ raft_voting_change_is_in_progress me) →
      raft_entry_is_cfg_change ety → ¬ cfg_change_is_valid me ety →
      (raft_recv_entry me ety now).rc = RAFT_ERR_INVALID_CFG_CHANGE ∧
      (raft_recv_entry me ety now).srv = me) ∧
    (ety.nodeId = me.nodeId → ¬ cfg_change_is_valid me ety) ∧
    (raft_is_leader me → ¬ (raft_entry_is_cfg_change ety ∧ raft_snapshot_is_in_progress me) →
      ¬ (raft_entry_is_cfg_change ety ∧ raft_entry_is_voting_cfg_change ety ∧
        raft_voting_change_is_in_progress me) →
      ¬ (raft_entry_is_cfg_change ety ∧ ¬ cfg_change_is_valid me ety) →
      (raft_recv_entry me ety now).rc = 0 ∧
      raft_get_current_idx (raft_recv_entry me ety now).srv = raft_get_current_idx me + 1 ∧
      log_get_at_idx (raft_recv_entry me ety now).srv.log (raft_get_current_idx me + 1) =
        some { ety with term := me.currentTerm } ∧
      (raft_get_num_voting_nodes (raft_recv_entry me ety now).srv = 1 →
        raft_get_commit_idx (raft_recv_entry me ety now).srv = raft_get_current_idx me + 1) ∧
      (¬ raft_get_num_voting_nodes (raft_recv_entry me ety now).srv = 1 →
        raft_get_commit_idx (raft_recv_entry me ety now).srv = raft_get_commit_idx me)) := by
  refine ⟨?_, ?_, ?_, ?_, fun hself hval => hval.1 hself, ?_⟩
  · intro hnl
    unfold raft_recv_entry
    rw [if_pos hnl]
    exact ⟨rfl, rfl⟩
  · intro hld hcfg hsnap
    unfold raft_recv_entry
    rw [if_neg (not_not_intro hld), if_pos ⟨hcfg, hsnap⟩]
    exact ⟨rfl, rfl⟩
  · intro hld hsnap hcfg hv hip
    unfold raft_recv_entry
    rw [if_neg (not_not_intro hld), if_neg (fun h => hsnap h.2), if_pos ⟨hcfg, hv, hip⟩]
    exact ⟨rfl, rfl⟩
  · intro hld hsnap hnv hcfg hinval
    unfold raft_recv_entry
    rw [if_neg (not_not_intro hld), if_neg (fun h => hsnap h.2),
      if_neg (fun h => hnv ⟨h.2.1, h.2.2⟩), if_pos ⟨hcfg, hinval⟩]
    exact ⟨rfl, rfl⟩
  · intro hld h2 h3 h4
    unfold raft_recv_entry
    rw [if_neg (not_not_intro hld), if_neg h2, if_neg h3, if_neg h4]
    simp only []
    set A := raft_append_entries me
      [{ term := me.currentTerm, id := ety.id, etype := ety.etype, dataLen := ety.dataLen,
         nodeId := ety.nodeId }] now with hA
    obtain ⟨c1, c2, c3, c4, c5⟩ := raft_append_entries_one me
      { term := me.currentTerm, id := ety.id, etype := ety.etype, dataLen := ety.dataLen,
        nodeId := ety.nodeId } now hwf
    rw [← hA] at c1 c2 c3 c4 c5
    have hidx : raft_get_current_idx me + 1 = me.log.base + me.log.count + 1 := by
      unfold raft_get_current_idx log_get_current_idx
      ring
    by_cases hvc : raft_entry_is_voting_cfg_change
        { term := me.currentTerm, id := ety.id, etype := ety.etype, dataLen := ety.dataLen,
          nodeId := ety.nodeId }
    · rw [if_pos hvc]
      by_cases hnv : raft_get_num_voting_nodes A = 1
      · rw [if_pos hnv]
        refine ⟨by trivial, ?_, ?_, fun h => ?_, fun h => absurd hnv h⟩
        · show A.log.count + A.log.base = raft_get_current_idx me + 1
          rw [hidx]
          omega
        · show log_get_at_idx A.log (raft_get_current_idx me + 1) =
            some { term := me.currentTerm, id := ety.id, etype := ety.etype,
                   dataLen := ety.dataLen, nodeId := ety.nodeId }
          rw [hidx]
          exact c3
        · show A.log.count + A.log.base = raft_get_current_idx me + 1
          rw [hidx]
          omega
      · rw [if_neg hnv]
        refine ⟨by trivial, ?_, ?_, fun h => absurd h hnv, fun h => c4⟩
        · show A.log.count + A.log.base = raft_get_current_idx me + 1
          rw [hidx]
          omega
        · show log_get_at_idx A.log (raft_get_current_idx me + 1) =
            some { term := me.currentTerm, id := ety.id, etype := ety.etype,
                   dataLen := ety.dataLen, nodeId := ety.nodeId }
          rw [hidx]
          exact c3
    · rw [if_neg hvc]
      by_cases hnv : raft_get_num_voting_nodes A = 1
      · rw [if_pos hnv]
        refine ⟨by trivial, ?_, ?_, fun h => ?_, fun h => absurd hnv h⟩
        · show A.log.count + A.log.base = raft_get_current_idx me + 1
          rw [hidx]
          omega
        · show log_get_at_idx A.log (raft_get_current_idx me + 1) =
            some { term := me.currentTerm, id := ety.id, etype := ety.etype,
                   dataLen := ety.dataLen, nodeId := ety.nodeId }
          rw [hidx]
          exact c3
        · show A.log.count + A.log.base = raft_get_current_idx me + 1
          rw [hidx]
          omega
      · rw [if_neg hnv]
        refine ⟨by trivial, ?_, ?_, fun h => absurd h hnv, fun h => c4⟩
        · show A.log.count + A.log.base = raft_get_current_idx me + 1
          rw [hidx]
          omega
        · show log_get_at_idx A.log (raft_get_current_idx me + 1) =
            some { term := me.currentTerm, id := ety.id, etype := ety.etype,
                   dataLen := ety.dataLen, nodeId := ety.nodeId }
          rw [hidx]
          exact c3

/-- Witness for C8 at a concrete input: a single-voting-node leader accepts
a NORMAL entry, stores it at index 1 with its own term, and commits it in
the same call. -/
theorem C8_recv_entry_witness :
    (raft_recv_entry leaderServer (normalEntry 0 9) 0).rc = 0 ∧
    raft_get_current_idx (raft_recv_entry leaderServer (normalEntry 0 9) 0).srv =
      raft_get_current_idx leaderServer + 1 ∧
    log_get_at_idx (raft_recv_entry leaderServer (normalEntry 0 9) 0).srv.log
      (raft_get_current_idx leaderServer + 1) =
      some { normalEntry 0 9 with term := leaderServer.currentTerm } ∧
    raft_get_commit_idx (raft_recv_entry leaderServer (normalEntry 0 9) 0).srv =
      raft_get_current_idx leaderServer + 1 := by
  have h := (C8_recv_entry leaderServer (normalEntry 0 9) 0 (by decide)).2.2.2.2.2
    (by decide) (by decide) (by decide) (by decide)
  exact ⟨h.1, h.2.1, h.2.2.1, h.2.2.2.1 (by decide)⟩

/-! ## C1 -/

/-- The `log_delete` loop always reports success. -/
theorem log_delete_loop_rc (now : Int) (f : Nat) (me : Server) (idx : Int)
    (acc : List (Int × Int × Int)) : (log_delete_loop now f me idx acc).rc = 0 := by
  induction f generalizing me acc with
  | zero => rfl
  | succ f ih =>
    simp only [log_delete_loop]
    split
    · split
      · rfl
      · exact ih _ _
    · rfl

/-- `raft_delete_entry_from_idx` returns 0 or -1 (never
`RAFT_ERR_SHUTDOWN`). -/
theorem raft_delete_entry_from_idx_rc (me : Server) (idx now : Int) :
    (raft_delete_entry_from_idx me idx now).rc = 0 ∨
    (raft_delete_entry_from_idx me idx now).rc = -1 := by
  unfold raft_delete_entry_from_idx log_delete
  simp only []
  split <;> split
  · exact Or.inl (log_delete_loop_rc _ _ _ _ _)
  · exact Or.inr rfl
  · exact Or.inl (log_delete_loop_rc _ _ _ _ _)
  · exact Or.inr rfl

/-- Every truncation decision of the step-3 scan is at an index strictly
above the commit index (a conflict at or below it yields `.shutdown`
instead). -/
theorem scan_entries_del_gt (me : Server) (prev : Int) :
    ∀ (es : List Entry) (i : Nat) (cur di : Int) (j : Nat) (c : Int),
      scan_entries me prev i es cur = .del di j c → raft_get_commit_idx me < di := by
  intro es
  induction es with
  | nil =>
    intro i cur di j c h
    simp only [scan_entries] at h
    exact ScanRes.noConfusion h
  | cons e rest ih =>
    intro i cur di j c h
    simp only [scan_entries] at h
    split at h
    · split at h
      · split at h
        · simp at h
        · rename_i hcommit
          obtain ⟨h1, h2, h3⟩ := ScanRes.del.inj h
          omega
      · exact ih _ _ _ _ _ h
    · split at h
      · simp at h
      · exact ih _ _ _ _ _ h

/-- If the first `i` incoming entries match the stored terms and entry `i`
conflicts at an index at or below the commit index, the step-3 scan decides
`.shutdown`. -/
theorem scan_entries_shutdown_of_conflict (me : Server) (prev : Int) :
    ∀ (es : List Entry) (i0 : Nat) (cur : Int) (i : Nat) (t : Int),
      i < es.length →
      (∀ j : Nat, j < i → raft_get_entry_term me (prev + 1 + ((i0 + j : Nat) : Int)) =
        some (es.getD j junkEntry).term) →
      raft_get_entry_term me (prev + 1 + ((i0 + i : Nat) : Int)) = some t →
      ¬ t = (es.getD i junkEntry).term →
      prev + 1 + ((i0 + i : Nat) : Int) ≤ raft_get_commit_idx me →
      ∃ c, scan_entries me prev i0 es cur = .shutdown c := by
  intro es
  induction es with
  | nil =>
    intro i0 cur i t hi
    exact absurd hi (by simp)
  | cons e rest ih =>
    intro i0 cur i t hi hmatch ht hne hcommit
    match i with
    | 0 =>
      simp only [Nat.add_zero] at ht hcommit
      simp only [List.getD_cons_zero] at hne
      refine ⟨cur, ?_⟩
      simp only [scan_entries, ht]
      rw [if_pos hne, if_pos hcommit]
    | Nat.succ n =>
      have h0 : raft_get_entry_term me (prev + 1 + (i0 : Int)) = some e.term := by
        have := hmatch 0 (Nat.succ_pos n)
        simpa using this
      simp only [scan_entries, h0]
      rw [if_neg (not_not_intro trivial)]
      have hrec := ih (i0 + 1) (prev + 1 + (i0 : Int)) n t
        (by simpa using hi)
        (fun j hj => by
          have := hmatch (j + 1) (by omega)
          have harith : (i0 + (j + 1) : Nat) = (i0 + 1 + j : Nat) := by omega
          rw [harith] at this
          simpa using this)
        (by
          have harith : (i0 + Nat.succ n : Nat) = (i0 + 1 + n : Nat) := by omega
          rw [harith] at ht
          exact ht)
        (by simpa using hne)
        (by
          have harith : (i0 + Nat.succ n : Nat) = (i0 + 1 + n : Nat) := by omega
          rw [harith] at hcommit
          exact hcommit)
      exact hrec

/-- Steps 4-5 of `raft_recv_appendentries` pass the deletion trace through
and return 0. -/
theorem recv_ae_append_fields (s : Server) (ae : MsgAE) (i : Nat) (lease now : Int)
    (ds : List Int) :
    (recv_ae_append s ae i lease now ds).dels = ds ∧
    (recv_ae_append s ae i lease now ds).rc = 0 := by
  unfold recv_ae_append
  exact ⟨rfl, rfl⟩

/-- The committed-prefix protection of `raft_recv_appendentries`, at the
post-term-check state `me2`: every suffix deletion starts strictly above the
commit index; a SHUTDOWN return deletes nothing and leaves the log
untouched; a `prev_log_idx` term mismatch at or below the commit index
returns SHUTDOWN; and an incoming-entry term conflict at or below the
commit index (prev check passing, earlier entries matching) returns
SHUTDOWN. -/
theorem recv_ae_main_committed (me2 : Server) (ae : MsgAE) (now : Int) :
    (∀ di ∈ (recv_ae_main me2 ae now).dels, raft_get_commit_idx me2 < di) ∧
    ((recv_ae_main me2 ae now).rc = RAFT_ERR_SHUTDOWN →
      (recv_ae_main me2 ae now).dels = [] ∧ (recv_ae_main me2 ae now).srv.log = me2.log) ∧
    (∀ t, 0 < ae.prevLogIdx →
      raft_get_entry_term me2 ae.prevLogIdx = some t → ¬ t = ae.prevLogTerm →
      ae.prevLogIdx ≤ raft_get_commit_idx me2 →
      (recv_ae_main me2 ae now).rc = RAFT_ERR_SHUTDOWN) ∧
    (∀ (i : Nat) (t : Int),
      (0 < ae.prevLogIdx → raft_get_entry_term me2 ae.prevLogIdx = some ae.prevLogTerm) →
      i < ae.entries.length →
      (∀ j : Nat, j < i → raft_get_entry_term me2 (ae.prevLogIdx + 1 + (j : Int)) =
        some (ae.entries.getD j junkEntry).term) →
      raft_get_entry_term me2 (ae.prevLogIdx + 1 + (i : Int)) = some t →
      ¬ t = (ae.entries.getD i junkEntry).term →
      ae.prevLogIdx + 1 + (i : Int) ≤ raft_get_commit_idx me2 →
      (recv_ae_main me2 ae now).rc = RAFT_ERR_SHUTDOWN) := by
  have hconf : ∀ (i : Nat) (t : Int),
      i < ae.entries.length →
      (∀ j : Nat, j < i → raft_get_entry_term me2 (ae.prevLogIdx + 1 + (j : Int)) =
        some (ae.entries.getD j junkEntry).term) →
      raft_get_entry_term me2 (ae.prevLogIdx + 1 + (i : Int)) = some t →
      ¬ t = (ae.entries.getD i junkEntry).term →
      ae.prevLogIdx + 1 + (i : Int) ≤ raft_get_commit_idx me2 →
      ∃ c, scan_entries me2 ae.prevLogIdx 0 ae.entries ae.prevLogIdx =
        ScanRes.shutdown c := by
    intro i t hi hmatch ht hne hcm
    refine scan_entries_shutdown_of_conflict me2 ae.prevLogIdx ae.entries 0
      ae.prevLogIdx i t hi ?_ ?_ hne ?_
    · intro j hj
      simpa using hmatch j hj
    · simpa using ht
    · simpa using hcm
  unfold recv_ae_main
  simp only []
  by_cases hp : 0 < ae.prevLogIdx
  · rw [if_pos hp]
    cases hterm : raft_get_entry_term me2 ae.prevLogIdx with
    | none =>
      by_cases hcur : raft_get_current_idx me2 < ae.prevLogIdx
      · rw [if_pos hcur]
        simp only []
        refine ⟨?_, ?_, ?_, ?_⟩
        · intro di hdi
          simp at hdi
        · intro h
          norm_num [RAFT_ERR_SHUTDOWN] at h
        · intro t _ ht3
          exact Option.noConfusion ht3
        · intro i t hprev
          exact Option.noConfusion (hprev hp)
      · rw [if_neg hcur]
        simp only []
        cases hscan : scan_entries me2 ae.prevLogIdx 0 ae.entries ae.prevLogIdx with
        | shutdown cur =>
          refine ⟨?_, ?_, ?_, ?_⟩
          · intro di hdi
            simp at hdi
          · intro _
            exact ⟨by first | rfl | trivial, by first | rfl | trivial⟩
          · intro t _ ht3
            exact Option.noConfusion ht3
          · intro _ _ _ _ _ _ _ _
            first | rfl | trivial
        | del di i cur =>
          simp only []
          split
          · refine ⟨?_, ?_, ?_, ?_⟩
            · intro di' hdi'
              simp only [List.mem_singleton] at hdi'
              subst hdi'
              exact scan_entries_del_gt me2 ae.prevLogIdx ae.entries 0 ae.prevLogIdx
                di' i cur hscan
            · intro h
              rcases raft_delete_entry_from_idx_rc me2 di now with h0 | h1
              · rw [h0] at h
                norm_num [RAFT_ERR_SHUTDOWN] at h
              · rw [h1] at h
                norm_num [RAFT_ERR_SHUTDOWN] at h
            · intro t _ ht3
              exact Option.noConfusion ht3
            · intro i' t hprev hi hmatch ht hne hcm
              obtain ⟨c, hsc⟩ := hconf i' t hi hmatch ht hne hcm
              rw [hscan] at hsc
              exact ScanRes.noConfusion hsc
          · refine ⟨?_, ?_, ?_, ?_⟩
            · intro di' hdi'
              rw [(recv_ae_append_fields _ _ _ _ _ _).1] at hdi'
              simp only [List.mem_singleton] at hdi'
              subst hdi'
              exact scan_entries_del_gt me2 ae.prevLogIdx ae.entries 0 ae.prevLogIdx
                di' i cur hscan
            · intro h
              rw [(recv_ae_append_fields _ _ _ _ _ _).2] at h
              norm_num [RAFT_ERR_SHUTDOWN] at h
            · intro t _ ht3
              exact Option.noConfusion ht3
            · intro i' t hprev hi hmatch ht hne hcm
              obtain ⟨c, hsc⟩ := hconf i' t hi hmatch ht hne hcm
              rw [hscan] at hsc
              exact ScanRes.noConfusion hsc
        | halt i cur =>
          refine ⟨?_, ?_, ?_, ?_⟩
          · intro di hdi
            rw [(recv_ae_append_fields _ _ _ _ _ _).1] at hdi
            simp at hdi
          · intro h
            rw [(recv_ae_append_fields _ _ _ _ _ _).2] at h
            norm_num [RAFT_ERR_SHUTDOWN] at h
          · intro t _ ht3
            exact Option.noConfusion ht3
          · intro i' t hprev hi hmatch ht hne hcm
            obtain ⟨c, hsc⟩ := hconf i' t hi hmatch ht hne hcm
            rw [hscan] at hsc
            exact ScanRes.noConfusion hsc
    | some t0 =>
      simp only []
      by_cases hne0 : t0 = ae.prevLogTerm
      · rw [if_neg (not_not_intro hne0)]
        simp only []
        cases hscan : scan_entries me2 ae.prevLogIdx 0 ae.entries ae.prevLogIdx with
        | shutdown cur =>
          refine ⟨?_, ?_, ?_, ?_⟩
          · intro di hdi
            simp at hdi
          · intro _
            exact ⟨by first | rfl | trivial, by first | rfl | trivial⟩
          · intro t _ ht3 hne3
            have h6 : t0 = t := by simpa using ht3
            exact absurd (hne0 ▸ h6.symm) hne3
          · intro _ _ _ _ _ _ _ _
            first | rfl | trivial
        | del di i cur =>
          simp only []
          split
          · refine ⟨?_, ?_, ?_, ?_⟩
            · intro di' hdi'
              simp only [List.mem_singleton] at hdi'
              subst hdi'
              exact scan_entries_del_gt me2 ae.prevLogIdx ae.entries 0 ae.prevLogIdx
                di' i cur hscan
            · intro h
              rcases raft_delete_entry_from_idx_rc me2 di now with h0 | h1
              · rw [h0] at h
                norm_num [RAFT_ERR_SHUTDOWN] at h
              · rw [h1] at h
                norm_num [RAFT_ERR_SHUTDOWN] at h
            · intro t _ ht3 hne3
              have h6 : t0 = t := by simpa using ht3
              exact absurd (hne0 ▸ h6.symm) hne3
            · intro i' t hprev hi hmatch ht hne hcm
              obtain ⟨c, hsc⟩ := hconf i' t hi hmatch ht hne hcm
              rw [hscan] at hsc
              exact ScanRes.noConfusion hsc
          · refine ⟨?_, ?_, ?_, ?_⟩
            · intro di' hdi'
              rw [(recv_ae_append_fields _ _ _ _ _ _).1] at hdi'
              simp only [List.mem_singleton] at hdi'
              subst hdi'
              exact scan_entries_del_gt me2 ae.prevLogIdx ae.entries 0 ae.prevLogIdx
                di' i cur hscan
            · intro h
              rw [(recv_ae_append_fields _ _ _ _ _ _).2] at h
              norm_num [RAFT_ERR_SHUTDOWN] at h
            · intro t _ ht3 hne3
              have h6 : t0 = t := by simpa using ht3
              exact absurd (hne0 ▸ h6.symm) hne3
            · intro i' t hprev hi hmatch ht hne hcm
              obtain ⟨c, hsc⟩ := hconf i' t hi hmatch ht hne hcm
              rw [hscan] at hsc
              exact ScanRes.noConfusion hsc
        | halt i cur =>
          refine ⟨?_, ?_, ?_, ?_⟩
          · intro di hdi
            rw [(recv_ae_append_fields _ _ _ _ _ _).1] at hdi
            simp at hdi
          · intro h
            rw [(recv_ae_append_fields _ _ _ _ _ _).2] at h
            norm_num [RAFT_ERR_SHUTDOWN] at h
          · intro t _ ht3 hne3
            have h6 : t0 = t := by simpa using ht3
            exact absurd (hne0 ▸ h6.symm) hne3
          · intro i' t hprev hi hmatch ht hne hcm
            obtain ⟨c, hsc⟩ := hconf i' t hi hmatch ht hne hcm
            rw [hscan] at hsc
            exact ScanRes.noConfusion hsc
      · rw [if_pos hne0]
        by_cases hcm0 : ae.prevLogIdx ≤ raft_get_commit_idx me2
        · rw [if_pos hcm0]
          simp only []
          refine ⟨?_, ?_, ?_, ?_⟩
          · intro di hdi
            simp at hdi
          · intro _
            exact ⟨by first | rfl | trivial, by first | rfl | trivial⟩
          · intro t _ _ _ _
            first | rfl | trivial
          · intro i t hprev
            have h6 : t0 = ae.prevLogTerm := by simpa using hprev hp
            intro _ _ _ _ _
            exact absurd h6 hne0
        · rw [if_neg hcm0]
          simp only []
          refine ⟨?_, ?_, ?_, ?_⟩
          · intro di hdi
            simp only [List.mem_singleton] at hdi
            subst hdi
            omega
          · intro h
            rcases raft_delete_entry_from_idx_rc me2 ae.prevLogIdx now with h0 | h1
            · rw [h0] at h
              norm_num [RAFT_ERR_SHUTDOWN] at h
            · rw [h1] at h
              norm_num [RAFT_ERR_SHUTDOWN] at h
          · intro t _ _ _ hcm3
            exact absurd hcm3 hcm0
          · intro i t hprev
            have h6 : t0 = ae.prevLogTerm := by simpa using hprev hp
            intro _ _ _ _ _
            exact absurd h6 hne0
  · rw [if_neg hp]
    simp only []
    cases hscan : scan_entries me2 ae.prevLogIdx 0 ae.entries ae.prevLogIdx with
    | shutdown cur =>
      refine ⟨?_, ?_, ?_, ?_⟩
      · intro di hdi
        simp at hdi
      · intro _
        exact ⟨rfl, rfl⟩
      · intro t hp3
        exact absurd hp3 hp
      · intro _ _ _ _ _ _ _ _
        first | rfl | trivial
    | del di i cur =>
      simp only []
      split
      · refine ⟨?_, ?_, ?_, ?_⟩
        · intro di' hdi'
          simp only [List.mem_singleton] at hdi'
          subst hdi'
          exact scan_entries_del_gt me2 ae.prevLogIdx ae.entries 0 ae.prevLogIdx
            di' i cur hscan
        · intro h
          rcases raft_delete_entry_from_idx_rc me2 di now with h0 | h1
          · rw [h0] at h
            norm_num [RAFT_ERR_SHUTDOWN] at h
          · rw [h1] at h
            norm_num [RAFT_ERR_SHUTDOWN] at h
        · intro t hp3
          exact absurd hp3 hp
        · intro i' t hprev hi hmatch ht hne hcm
          obtain ⟨c, hsc⟩ := hconf i' t hi hmatch ht hne hcm
          rw [hscan] at hsc
          exact ScanRes.noConfusion hsc
      · refine ⟨?_, ?_, ?_, ?_⟩
        · intro di' hdi'
          rw [(recv_ae_append_fields _ _ _ _ _ _).1] at hdi'
          simp only [List.mem_singleton] at hdi'
          subst hdi'
          exact scan_entries_del_gt me2 ae.prevLogIdx ae.entries 0 ae.prevLogIdx
            di' i cur hscan
        · intro h
          rw [(recv_ae_append_fields _ _ _ _ _ _).2] at h
          norm_num [RAFT_ERR_SHUTDOWN] at h
        · intro t hp3
          exact absurd hp3 hp
        · intro i' t hprev hi hmatch ht hne hcm
          obtain ⟨c, hsc⟩ := hconf i' t hi hmatch ht hne hcm
          rw [hscan] at hsc
          exact ScanRes.noConfusion hsc
    | halt i cur =>
      refine ⟨?_, ?_, ?_, ?_⟩
      · intro di hdi
        rw [(recv_ae_append_fields _ _ _ _ _ _).1] at hdi
        simp at hdi
      · intro h
        rw [(recv_ae_append_fields _ _ _ _ _ _).2] at h
        norm_num [RAFT_ERR_SHUTDOWN] at h
      · intro t hp3
        exact absurd hp3 hp
      · intro i' t hprev hi hmatch ht hne hcm
        obtain ⟨c, hsc⟩ := hconf i' t hi hmatch ht hne hcm
        rw [hscan] at hsc
        exact ScanRes.noConfusion hsc

/-- `raft_set_current_term` keeps the log and the commit index. -/
theorem raft_set_current_term_keeps (me : Server) (t : Int) :
    (raft_set_current_term me t).log = me.log ∧
    (raft_set_current_term me t).commitIdx = me.commitIdx := by
  unfold raft_set_current_term
  split <;> exact ⟨rfl, rfl⟩

/-- C1: no committed entry is deleted or overwritten by
`raft_recv_appendentries`: every suffix deletion it performs starts at an
index strictly greater than commit_idx; when it returns RAFT_ERR_SHUTDOWN it
performs no deletion and leaves the log unchanged; and it returns
RAFT_ERR_SHUTDOWN whenever a `prev_log_idx` term mismatch, or a term
conflict of an incoming entry (the prev check passing and the earlier
entries matching), falls at an index ≤ commit_idx (given the message is not
dropped as stale, `current_term ≤ ae.term`). -/
theorem C1_no_committed_truncation (me : Server) (nid : Int) (ae : MsgAE)
    (now etRand : Int) :
    (∀ di ∈ (raft_recv_appendentries me nid ae now etRand).dels,
      raft_get_commit_idx me < di) ∧
    ((raft_recv_appendentries me nid ae now etRand).rc = RAFT_ERR_SHUTDOWN →
      (raft_recv_appendentries me nid ae now etRand).dels = [] ∧
      (raft_recv_appendentries me nid ae now etRand).srv.log = me.log) ∧
    (∀ t, me.currentTerm ≤ ae.term → 0 < ae.prevLogIdx →
      raft_get_entry_term me ae.prevLogIdx = some t → ¬ t = ae.prevLogTerm →
      ae.prevLogIdx ≤ raft_get_commit_idx me →
      (raft_recv_appendentries me nid ae now etRand).rc = RAFT_ERR_SHUTDOWN) ∧
    (∀ (i : Nat) (t : Int), me.currentTerm ≤ ae.term →
      (0 < ae.prevLogIdx → raft_get_entry_term me ae.prevLogIdx = some ae.prevLogTerm) →
      i < ae.entries.length →
      (∀ j : Nat, j < i → raft_get_entry_term me (ae.prevLogIdx + 1 + (j : Int)) =
        some (ae.entries.getD j junkEntry).term) →
      raft_get_entry_term me (ae.prevLogIdx + 1 + (i : Int)) = some t →
      ¬ t = (ae.entries.getD i junkEntry).term →
      ae.prevLogIdx + 1 + (i : Int) ≤ raft_get_commit_idx me →
      (raft_recv_appendentries me nid ae now etRand).rc = RAFT_ERR_SHUTDOWN) := by
  unfold raft_recv_appendentries
  by_cases h1 : me.state = RAFT_STATE_CANDIDATE ∧ me.currentTerm = ae.term
  · rw [if_pos h1]
    obtain ⟨c1, c2, c3, c4⟩ := recv_ae_main_committed
      { raft_become_follower me now etRand with leaderId := nid, electionTimer := now } ae now
    exact ⟨c1, c2, fun t _ => c3 t, fun i t _ => c4 i t⟩
  · rw [if_neg h1]
    by_cases h2 : me.currentTerm < ae.term
    · rw [if_pos h2]
      obtain ⟨hkl, hkc⟩ := raft_set_current_term_keeps me ae.term
      have hlog2 : ({ raft_become_follower (raft_set_current_term me ae.term) now etRand with
          leaderId := nid, electionTimer := now } : Server).log = me.log := hkl
      have hcm2 : raft_get_commit_idx
          { raft_become_follower (raft_set_current_term me ae.term) now etRand with
            leaderId := nid, electionTimer := now } = raft_get_commit_idx me := hkc
      obtain ⟨c1, c2, c3, c4⟩ := recv_ae_main_committed
        { raft_become_follower (raft_set_current_term me ae.term) now etRand with
          leaderId := nid, electionTimer := now } ae now
      have hte : ∀ x, raft_get_entry_term
          { raft_become_follower (raft_set_current_term me ae.term) now etRand with
            leaderId := nid, electionTimer := now } x = raft_get_entry_term me x :=
        fun x => raft_get_entry_term_log_eq hlog2 x
      rw [hcm2] at c1 c3
      rw [hlog2] at c2
      simp only [hte, hcm2] at c3 c4
      exact ⟨c1, c2, fun t _ => c3 t, fun i t _ => c4 i t⟩
    · rw [if_neg h2]
      by_cases h3 : ae.term < me.currentTerm
      · rw [if_pos h3]
        refine ⟨?_, ?_, ?_, ?_⟩
        · intro di hdi
          simp at hdi
        · intro h
          norm_num [RAFT_ERR_SHUTDOWN] at h
        · intro t hle
          exact absurd hle (not_le.mpr h3)
        · intro i t hle
          exact absurd hle (not_le.mpr h3)
      · rw [if_neg h3]
        obtain ⟨c1, c2, c3, c4⟩ := recv_ae_main_committed
          { me with leaderId := nid, electionTimer := now } ae now
        exact ⟨c1, c2, fun t _ => c3 t, fun i t _ => c4 i t⟩

/-- C1 witness fixture: two term-1 entries, both committed. -/
def c1Server : Server :=
  { baseServer with log := listLog [normalEntry 1 1, normalEntry 1 2] 10, commitIdx := 2 }

/-- An AppendEntries whose `prev_log_term` (9) mismatches the stored term
(1) at the committed index 2. -/
def c1ae : MsgAE :=
  { term := 1, prevLogIdx := 2, prevLogTerm := 9, leaderCommit := 0, entries := [] }

/-- Witness for C1 at a concrete input: a prev mismatch at committed index
2 returns SHUTDOWN, deletes nothing and leaves the log unchanged. -/
theorem C1_no_committed_truncation_witness :
    (raft_recv_appendentries c1Server 2 c1ae 0 0).rc = RAFT_ERR_SHUTDOWN ∧
    (raft_recv_appendentries c1Server 2 c1ae 0 0).dels = [] ∧
    (raft_recv_appendentries c1Server 2 c1ae 0 0).srv.log = c1Server.log := by
  have h := C1_no_committed_truncation c1Server 2 c1ae 0 0
  have hrc := h.2.2.1 1 (by decide) (by decide) (by decide) (by decide) (by decide)
  exact ⟨hrc, (h.2.1 hrc).1, (h.2.1 hrc).2⟩
